import Mathlib

/-!
CppGoldies: tagged serializer and message envelope.

Shallow embedding of `CppGoldies001/CppGoldies001.cpp`, `CppGoldies001/CppGoldies001.h`
and `CppGoldies002/CppGoldies002.cpp`.

Conventions of the embedding

* `std::uint8_t` is a natural number (a byte is a value below 256); the only place
  where a conversion can truncate is `MessageIds::toUint`, which reduces modulo 256.
* `std::deque<std::uint8_t>` is a `List`: `front()` is the head, `pop_front()` drops the
  head, `push_back` appends at the tail.
* A member function is a function from the objects it can modify to a `Result`: a normal
  return with the returned value and the new state, a thrown exception together with the
  state in which it was thrown, or undefined behaviour (`front()`/`pop_front()` on an
  empty deque, stepping an iterator past the end, dereferencing a null pointer).
* The abstract class `IStream` is a type class whose single method is the private virtual
  `marshal(std::uint8_t&)`; `s & x` is `marshal s x`. The second virtual,
  `marshal(ISerializable&)`, has the same body `C.serialize(*this)` in both streams and
  is `marshalObject`.
* A pointer is an `Option`: `none` is `nullptr`.
-/

namespace Serializer

/-- A `std::uint8_t` value. -/
abbrev uint8_t := Nat

/-- The type `t_buffer`, a `std::deque<std::uint8_t>`, front first. -/
abbrev t_buffer := List uint8_t

namespace TV

/-- Enumerator `TV::unsignedByte`, the first enumerator. -/
def unsignedByte : uint8_t := 0

/-- Enumerator `TV::ISerializable`. -/
def ISerializable : uint8_t := 1

/-- Enumerator `TV::Classidentifier` (declared in CppGoldies002.cpp and CppGoldies001.h). -/
def Classidentifier : uint8_t := 2

end TV

/-- The four `throw` statements of the program, named after the error kind; every one
throws `std::runtime_error` in CppGoldies002.cpp, and the first one throws
`std::invalid_argument` in CppGoldies001. -/
inductive Exception where
  /-- Message "unknown datatype in TV processing", thrown by `InStream::marshal`. -/
  | formatViolation
  /-- Message "null ptr detected in fabricate(productTag id)...". -/
  | registryInconsistency
  /-- Message "nullptr in message getpayload()". -/
  | missingPayload
  /-- Message "null ptr detected in package(Serializer::OutStream::t_buffer buf)!!". -/
  | unknownMessageKind
deriving DecidableEq

/-- Outcome of a call: the state type `σ` collects the objects the call can modify. -/
inductive Result (σ α : Type) where
  /-- Normal return of `value`, leaving `state`. -/
  | ok (value : α) (state : σ)
  /-- An exception left the call; `state` is the state at the `throw`. -/
  | thrown (e : Exception) (state : σ)
  /-- Undefined behaviour was reached. -/
  | undefined
deriving DecidableEq

namespace Result

/-- View the state of an outcome through `f` (used when a callee works on a part of the
state of its caller). -/
def mapState {σ τ α : Type} (f : σ → τ) : Result σ α → Result τ α
  | ok a s => ok a (f s)
  | thrown e s => thrown e (f s)
  | undefined => undefined

/-- Sequencing of two statements: the second runs only after a normal return. -/
def andThen {σ α β : Type} (r : Result σ α) (k : α → σ → Result σ β) : Result σ β :=
  match r with
  | ok a s => k a s
  | thrown e s => thrown e s
  | undefined => undefined

/-- Forget the returned value. -/
def discard {σ α : Type} : Result σ α → Result σ Unit
  | ok _ s => ok () s
  | thrown e s => thrown e s
  | undefined => undefined

end Result

/-- Abstract class `IStream`: the virtual `marshal(std::uint8_t&)`. The state of a call is
the stream and the byte passed by reference. -/
class IStream (S : Type) where
  /-- The virtual `marshal(std::uint8_t&)`. -/
  marshal : S → uint8_t → Result (S × uint8_t) Unit

/-- Member `IStream::version`. -/
def IStream.version : uint8_t := 1

/-- The virtual `marshal(ISerializable& C)`: `C.serialize(*this)` in `OutStream` and in
`InStream` alike; `serialize` is the virtual `serialize` of the object. -/
def marshalObject {S T : Type} (serialize : T → S → Result (T × S) Unit) (self : S) (C : T) :
    Result (T × S) Unit :=
  serialize C self

/-- Class `OutStream`. -/
structure OutStream where
  /-- Member `_buffer`. -/
  _buffer : t_buffer
deriving DecidableEq

namespace OutStream

/-- A default-constructed `OutStream`: the deque is empty. -/
def new : OutStream := ⟨[]⟩

/-- Method `OutStream::marshal(std::uint8_t& v)`. -/
def marshal (self : OutStream) (v : uint8_t) : Result (OutStream × uint8_t) Unit :=
  let b1 := self._buffer ++ [TV.unsignedByte]
  let b2 := b1 ++ [v]
  .ok () (⟨b2⟩, v)

/-- Method `OutStream::getbuffer`. -/
def getbuffer (self : OutStream) : t_buffer := self._buffer

/-- Method `OutStream::reset`. -/
def reset (_self : OutStream) : OutStream := ⟨[]⟩

end OutStream

instance : IStream OutStream := ⟨OutStream.marshal⟩

/-- Class `InStream`. In CppGoldies001 the member is a reference to the deque handed to
the constructor, in CppGoldies002 it is a copy of it. -/
structure InStream where
  /-- Member `_buffer`. -/
  _buffer : t_buffer
deriving DecidableEq

namespace InStream

/-- Default constructor `InStream()` of CppGoldies002. -/
def new : InStream := ⟨[]⟩

/-- Method `InStream::marshal(std::uint8_t& v)`. -/
def marshal (self : InStream) (v : uint8_t) : Result (InStream × uint8_t) Unit :=
  match self._buffer with
  | [] => .undefined
  | front :: b1 =>
    if front = TV.unsignedByte then
      match b1 with
      | [] => .undefined
      | front1 :: b2 => .ok () (⟨b2⟩, front1)
    else
      .thrown .formatViolation (self, v)

/-- Method `InStream::setBuffer`. -/
def setBuffer (_self : InStream) (buf : t_buffer) : InStream := ⟨buf⟩

/-- Method `InStream::peek`: `*++_buffer.begin()`. -/
def peek (self : InStream) : Result InStream uint8_t :=
  match self._buffer with
  | _ :: second :: _ => .ok second self
  | _ => .undefined

end InStream

instance : IStream InStream := ⟨InStream.marshal⟩

end Serializer

open Serializer

/-- Test class `MyFirst`. -/
structure MyFirst where
  /-- Member `_val001`. -/
  _val001 : uint8_t
  /-- Member `_val002`. -/
  _val002 : uint8_t
deriving DecidableEq

namespace MyFirst

/-- Constructor `MyFirst()`. -/
def new : MyFirst := ⟨0, 0⟩

/-- Method `MyFirst::serialize`: `s & _val001 & _val002`. -/
def serialize {S : Type} [IStream S] (self : MyFirst) (s : S) : Result (MyFirst × S) Unit :=
  ((IStream.marshal s self._val001).mapState
      fun (s, v) => (({ self with _val001 := v } : MyFirst), s)).andThen
    fun _ (self, s) =>
      (IStream.marshal s self._val002).mapState
        fun (s, v) => (({ self with _val002 := v } : MyFirst), s)

/-- Method `MyFirst::setPattern`. -/
def setPattern (self : MyFirst) : MyFirst :=
  { { self with _val001 := 0x55 } with _val002 := 0xAA }

end MyFirst

/-- Test class `MySecond`. -/
structure MySecond where
  /-- Member `_val003`. -/
  _val003 : uint8_t
  /-- Member `_val004`. -/
  _val004 : uint8_t
  /-- Member `_myFirst`. -/
  _myFirst : MyFirst
deriving DecidableEq

namespace MySecond

/-- Constructor `MySecond()`. -/
def new : MySecond := ⟨0, 0, MyFirst.new⟩

/-- Method `MySecond::serialize`: `s & _myFirst; s & _val003 & _val004;`. -/
def serialize {S : Type} [IStream S] (self : MySecond) (s : S) : Result (MySecond × S) Unit :=
  ((marshalObject MyFirst.serialize s self._myFirst).mapState
      fun (f, s) => (({ self with _myFirst := f } : MySecond), s)).andThen
    fun _ (self, s) =>
      ((IStream.marshal s self._val003).mapState
          fun (s, v) => (({ self with _val003 := v } : MySecond), s)).andThen
        fun _ (self, s) =>
          (IStream.marshal s self._val004).mapState
            fun (s, v) => (({ self with _val004 := v } : MySecond), s)

/-- Method `MySecond::setPattern`. -/
def setPattern (self : MySecond) : MySecond :=
  { self with _val003 := 0x99, _val004 := 0x66, _myFirst := self._myFirst.setPattern }

end MySecond

namespace Messaging

namespace MessageIds

/-- Enumeration `MessageIds::type`. It has no fixed underlying type; a value is
represented by its integer value, and `static_cast<MessageIds::type>(b)` of a byte `b`
keeps the value `b`, also when `b` is not the value of an enumerator. -/
abbrev type := Nat

/-- Enumerator `msg001`. -/
def msg001 : type := 0

/-- Enumerator `msg002`. -/
def msg002 : type := 1

/-- Function `MessageIds::toUint`: the conversion to `std::uint8_t`. -/
def toUint (v : type) : uint8_t := v % 256

end MessageIds

end Messaging

open Messaging

mutual

/-- The objects an `ISerializable*` can point to: the classes of the program that
implement `ISerializable`. -/
inductive ISerializable where
  /-- A `MyFirst` object. -/
  | ofMyFirst : MyFirst → ISerializable
  /-- A `MySecond` object. -/
  | ofMySecond : MySecond → ISerializable
  /-- A `Messaging::Message` object. -/
  | ofMessage : Messaging.Message → ISerializable

/-- Class `Messaging::Message`: the members `_id` and `_payload`, set by the constructor
`Message(id, payload)`; `_payload` is a pointer and may be `nullptr`. -/
inductive Messaging.Message where
  /-- Constructor `Message(MessageIds::type id, ISerializable* payload)`. -/
  | mk (_id : MessageIds.type) (_payload : Option ISerializable) : Messaging.Message

end

namespace Messaging

/-- Member `_id`. -/
def Message._id : Message → MessageIds.type
  | .mk id _ => id

/-- Member `_payload`. -/
def Message._payload : Message → Option ISerializable
  | .mk _ payload => payload

end Messaging

mutual

/-- Equality of two objects is decidable. -/
def ISerializable.decEq : (x y : ISerializable) → Decidable (x = y)
  | .ofMyFirst a, .ofMyFirst b =>
    if h : a = b then isTrue (by rw [h]) else isFalse (fun e => h (by cases e; rfl))
  | .ofMySecond a, .ofMySecond b =>
    if h : a = b then isTrue (by rw [h]) else isFalse (fun e => h (by cases e; rfl))
  | .ofMessage a, .ofMessage b =>
    match Messaging.Message.decEq a b with
    | isTrue h => isTrue (by rw [h])
    | isFalse h => isFalse (fun e => h (by cases e; rfl))
  | .ofMyFirst _, .ofMySecond _ => isFalse (fun e => by cases e)
  | .ofMyFirst _, .ofMessage _ => isFalse (fun e => by cases e)
  | .ofMySecond _, .ofMyFirst _ => isFalse (fun e => by cases e)
  | .ofMySecond _, .ofMessage _ => isFalse (fun e => by cases e)
  | .ofMessage _, .ofMyFirst _ => isFalse (fun e => by cases e)
  | .ofMessage _, .ofMySecond _ => isFalse (fun e => by cases e)

/-- Equality of two messages is decidable. -/
def Messaging.Message.decEq : (x y : Messaging.Message) → Decidable (x = y)
  | .mk i none, .mk j none =>
    if h : i = j then isTrue (by rw [h]) else isFalse (fun e => h (by cases e; rfl))
  | .mk i (some p), .mk j (some q) =>
    if h : i = j then
      match ISerializable.decEq p q with
      | isTrue hp => isTrue (by rw [h, hp])
      | isFalse hp => isFalse (fun e => hp (by cases e; rfl))
    else isFalse (fun e => h (by cases e; rfl))
  | .mk _ none, .mk _ (some _) => isFalse (fun e => by cases e)
  | .mk _ (some _), .mk _ none => isFalse (fun e => by cases e)

end

instance : DecidableEq ISerializable := ISerializable.decEq

instance : DecidableEq Messaging.Message := Messaging.Message.decEq

mutual

/-- The virtual call `C.serialize(s)` on an `ISerializable& C`, dispatched on the class
of the object. -/
def ISerializable.serialize {S : Type} [IStream S] :
    ISerializable → S → Result (ISerializable × S) Unit
  | .ofMyFirst o, s => (o.serialize s).mapState fun (o, s) => (.ofMyFirst o, s)
  | .ofMySecond o, s => (o.serialize s).mapState fun (o, s) => (.ofMySecond o, s)
  | .ofMessage m, s =>
    (Messaging.Message.serializeLocal m s).discard.mapState fun (m, s) => (.ofMessage m, s)

/-- Body of `Message::serialize`:
`auto id = MessageIds::toUint(_id); s & id & *_payload;`.
The value returned here is the final content of the local variable `id`, which the
C++ function drops when it returns. The member `_id` is not assigned.
The two operands of the second `&` are evaluated in an unspecified order and `*_payload`
on a null pointer is undefined behaviour, so a null `_payload` is undefined behaviour
whatever the stream does. The call `marshal(*_payload)` is `_payload->serialize(s)`,
the body of `marshalObject`, written out here because the definition is recursive. -/
def Messaging.Message.serializeLocal {S : Type} [IStream S] :
    Messaging.Message → S → Result (Messaging.Message × S) uint8_t
  | .mk _ none, _ => .undefined
  | .mk _id (some p), s =>
    let id := MessageIds.toUint _id
    match IStream.marshal s id with
    | .undefined => .undefined
    | .thrown e (s, _) => .thrown e (.mk _id (some p), s)
    | .ok _ (s, id) =>
      match ISerializable.serialize p s with
      | .undefined => .undefined
      | .thrown e (p, s) => .thrown e (.mk _id (some p), s)
      | .ok _ (p, s) => .ok id (.mk _id (some p), s)

end

namespace Messaging

/-- Method `Message::serialize`. -/
def Message.serialize {S : Type} [IStream S] (self : Message) (s : S) :
    Result (Message × S) Unit :=
  (self.serializeLocal s).discard

/-- Method `Message::getPayload`. -/
def Message.getPayload (self : Message) : Result Message ISerializable :=
  match self._payload with
  | none => .thrown .missingPayload self
  | some p => .ok p self

end Messaging

namespace Construction

/-- Interface `IProduce<product>`: the pure virtual `productPtr Create()`. The result
is a pointer, so it may be `nullptr` (`none`); the creators of the program return a
newly allocated message. A call of `Create` changes nothing else. -/
structure IProduce (product : Type) where
  /-- The virtual `Create()`. -/
  Create : Option product

/-- Class `Factory<product, productTag>`. The member `_manufacturingLines` is a
`std::map<productTag, Producer>`: a key is absent (`none`) or bound to a `Producer`,
which is a pointer to an `IProduce<product>` and may be `nullptr`. -/
structure Factory (product productTag : Type) where
  /-- Member `_manufacturingLines`. -/
  _manufacturingLines : productTag → Option (Option (IProduce product))

namespace Factory

/-- A default-constructed factory: the map is empty. -/
def new {product productTag : Type} : Factory product productTag := ⟨fun _ => none⟩

/-- Method `Factory::fabricate`; the result is a `productPtr`. -/
def fabricate {product productTag : Type} (self : Factory product productTag)
    (id : productTag) : Result (Factory product productTag) (Option product) :=
  match self._manufacturingLines id with
  | some second =>
    match second with
    | none => .thrown .registryInconsistency self
    | some producer => .ok producer.Create self
  | none => .ok none self

/-- Method `Factory::install`: `_manufacturingLines[id] = P`. -/
def install {product productTag : Type} [DecidableEq productTag]
    (self : Factory product productTag) (id : productTag) (P : Option (IProduce product)) :
    Factory product productTag :=
  ⟨fun k => if k = id then some P else self._manufacturingLines k⟩

end Factory

end Construction

open Construction

namespace Messaging

/-- Class `Send`. -/
structure Send where
  /-- Member `_toOutput`. -/
  _toOutput : OutStream

namespace Send

/-- A newly created `Send`: `_toOutput` is default-constructed. -/
def new : Send := ⟨OutStream.new⟩

/-- Method `Send::package`. The message is passed by reference; the returned value is the
content of the buffer the returned reference points to. -/
def package (self : Send) (msg : Message) : Result (Send × Message) t_buffer :=
  match msg.serialize self._toOutput with
  | .undefined => .undefined
  | .thrown e (msg, o) => .thrown e (⟨o⟩, msg)
  | .ok _ (msg, o) => .ok o.getbuffer (⟨o⟩, msg)

end Send

/-- The type `recieve::t_factory`. -/
abbrev t_factory := Factory Message MessageIds.type

/-- Class `recieve`. The member `_factory` is a reference to the factory handed to the
constructor; `package` does not modify the factory. -/
structure recieve where
  /-- Member `_input`. -/
  _input : InStream
  /-- Member `_factory`. -/
  _factory : t_factory

namespace recieve

/-- Constructor `recieve(t_factory& factory)`. -/
def new (factory : t_factory) : recieve := ⟨InStream.new, factory⟩

/-- Method `recieve::package`; the returned value is the object the returned pointer
points to. -/
def package (self : recieve) (buf : t_buffer) : Result recieve Message :=
  let self : recieve := ⟨self._input.setBuffer buf, self._factory⟩
  match self._input.peek with
  | .undefined => .undefined
  | .thrown e i => .thrown e ⟨i, self._factory⟩
  | .ok peeked i =>
    let self : recieve := ⟨i, self._factory⟩
    let id : MessageIds.type := peeked
    match self._factory.fabricate id with
    | .undefined => .undefined
    | .thrown e f => .thrown e ⟨self._input, f⟩
    | .ok product f =>
      let self : recieve := ⟨self._input, f⟩
      match product with
      | none => .thrown .unknownMessageKind self
      | some product =>
        match product.serialize self._input with
        | .undefined => .undefined
        | .thrown e (_, i) => .thrown e ⟨i, self._factory⟩
        | .ok _ (product, i) => .ok product ⟨i, self._factory⟩

end recieve

end Messaging

/-- Creator `Msg001ProductionLine`: `new Message(MessageIds::msg001, new MyFirst)`. -/
def Msg001ProductionLine : IProduce Message :=
  ⟨some (.mk MessageIds.msg001 (some (.ofMyFirst MyFirst.new)))⟩

/-- Method `Msg001ProductionLine::getId`. -/
def Msg001ProductionLine.getId : MessageIds.type := MessageIds.msg001

/-- Creator `Msg002ProductionLine`: `new Message(MessageIds::msg002, new MySecond)`. -/
def Msg002ProductionLine : IProduce Message :=
  ⟨some (.mk MessageIds.msg002 (some (.ofMySecond MySecond.new)))⟩

/-- Method `Msg002ProductionLine::getId`. -/
def Msg002ProductionLine.getId : MessageIds.type := MessageIds.msg002

/-- The factory set up in `main` of CppGoldies002.cpp: both creators installed under
their own identifiers. -/
def MsgFactory : t_factory :=
  (Factory.new.install Msg001ProductionLine.getId (some Msg001ProductionLine)).install
    Msg002ProductionLine.getId (some Msg002ProductionLine)

/-! ## Notions used to state the properties -/

mutual

/-- Every `_payload` pointer reachable from the object is non-null. -/
def ISerializable.present : ISerializable → Bool
  | .ofMyFirst _ => true
  | .ofMySecond _ => true
  | .ofMessage m => Messaging.Message.present m

/-- The payload of the message is non-null, and so are the payloads below it. -/
def Messaging.Message.present : Messaging.Message → Bool
  | .mk _ none => false
  | .mk _ (some p) => ISerializable.present p

end

mutual

/-- A newly constructed object of the same class: `MyFirst()`, `MySecond()`, or a
`Message` built like the creators do, with the same identifier and a newly constructed
payload of the same class. -/
def ISerializable.fresh : ISerializable → ISerializable
  | .ofMyFirst _ => .ofMyFirst MyFirst.new
  | .ofMySecond _ => .ofMySecond MySecond.new
  | .ofMessage m => .ofMessage (Messaging.Message.fresh m)

/-- A message with the same identifier and a newly constructed payload of the same
class. -/
def Messaging.Message.fresh : Messaging.Message → Messaging.Message
  | .mk id none => .mk id none
  | .mk id (some p) => .mk id (some (ISerializable.fresh p))

end

mutual

/-- Number of `std::uint8_t` values the traversal of the object visits. -/
def ISerializable.fieldCount : ISerializable → Nat
  | .ofMyFirst _ => 2
  | .ofMySecond _ => 4
  | .ofMessage m => Messaging.Message.fieldCount m

/-- One value for the identifier, plus the values of the payload. -/
def Messaging.Message.fieldCount : Messaging.Message → Nat
  | .mk _ none => 1
  | .mk _ (some p) => 1 + ISerializable.fieldCount p

end

mutual

/-- The bytes the wire format of section 6 prescribes for the object: a tag byte 0 and
the value for every visited `std::uint8_t`, nested objects inlined. -/
def ISerializable.wire : ISerializable → t_buffer
  | .ofMyFirst o => [0, o._val001, 0, o._val002]
  | .ofMySecond o => [0, o._myFirst._val001, 0, o._myFirst._val002, 0, o._val003, 0, o._val004]
  | .ofMessage m => Messaging.Message.wire m

/-- The tagged identifier followed by the bytes of the payload. -/
def Messaging.Message.wire : Messaging.Message → t_buffer
  | .mk id none => [0, MessageIds.toUint id]
  | .mk id (some p) => [0, MessageIds.toUint id] ++ ISerializable.wire p

end

/-- The state of a `recieve` object after a caller has made the calls `package(buf)` for
the buffers of `history`, one after the other, going on after a normal return and after
a caught exception alike; there is no such state (`none`) once a call has run into
undefined behaviour. -/
def Messaging.recieve.afterCalls : recieve → List t_buffer → Option recieve
  | self, [] => some self
  | self, buf :: history =>
    match self.package buf with
    | .ok _ r => Messaging.recieve.afterCalls r history
    | .thrown _ r => Messaging.recieve.afterCalls r history
    | .undefined => none

/-! ## Lemmas on the two streams -/

theorem OutStream_marshal_eq (buf : t_buffer) (v : uint8_t) :
    IStream.marshal (OutStream.mk buf) v = .ok () (⟨buf ++ [0, v]⟩, v) := by
  simp [IStream.marshal, OutStream.marshal, TV.unsignedByte]

theorem InStream_marshal_tagged (x v : uint8_t) (rest : t_buffer) :
    IStream.marshal (InStream.mk (0 :: x :: rest)) v = .ok () (⟨rest⟩, x) := by
  simp [IStream.marshal, InStream.marshal, TV.unsignedByte]

theorem InStream_marshal_bad_tag (t v : uint8_t) (rest : t_buffer) (ht : t ≠ 0) :
    IStream.marshal (InStream.mk (t :: rest)) v =
      .thrown .formatViolation (⟨t :: rest⟩, v) := by
  simp [IStream.marshal, InStream.marshal, TV.unsignedByte, ht]

theorem MyFirst_serialize_out (o : MyFirst) (buf : t_buffer) :
    o.serialize (OutStream.mk buf) = .ok () (o, ⟨buf ++ [0, o._val001, 0, o._val002]⟩) := by
  simp [MyFirst.serialize, OutStream_marshal_eq, Result.mapState, Result.andThen]

theorem MySecond_serialize_out (o : MySecond) (buf : t_buffer) :
    o.serialize (OutStream.mk buf) =
      .ok () (o, ⟨buf ++ [0, o._myFirst._val001, 0, o._myFirst._val002,
        0, o._val003, 0, o._val004]⟩) := by
  simp [MySecond.serialize, marshalObject, MyFirst_serialize_out, OutStream_marshal_eq,
    Result.mapState, Result.andThen]

theorem MyFirst_serialize_in (o : MyFirst) (a b : uint8_t) (rest : t_buffer) :
    o.serialize (InStream.mk (0 :: a :: 0 :: b :: rest)) = .ok () (⟨a, b⟩, ⟨rest⟩) := by
  simp [MyFirst.serialize, InStream_marshal_tagged, Result.mapState, Result.andThen]

theorem MySecond_serialize_in (o : MySecond) (a b c d : uint8_t) (rest : t_buffer) :
    o.serialize (InStream.mk (0 :: a :: 0 :: b :: 0 :: c :: 0 :: d :: rest)) =
      .ok () (⟨c, d, ⟨a, b⟩⟩, ⟨rest⟩) := by
  simp [MySecond.serialize, marshalObject, MyFirst_serialize_in, InStream_marshal_tagged,
    Result.mapState, Result.andThen]

mutual

theorem ISerializable_serialize_out :
    ∀ (o : ISerializable), o.present → ∀ (buf : t_buffer),
      o.serialize (OutStream.mk buf) = .ok () (o, ⟨buf ++ o.wire⟩)
  | .ofMyFirst o, _, buf => by
    simp [ISerializable.serialize, ISerializable.wire, MyFirst_serialize_out, Result.mapState]
  | .ofMySecond o, _, buf => by
    simp [ISerializable.serialize, ISerializable.wire, MySecond_serialize_out, Result.mapState]
  | .ofMessage m, h, buf => by
    have hm := Message_serializeLocal_out m (by simpa [ISerializable.present] using h) buf
    simp [ISerializable.serialize, ISerializable.wire, hm, Result.mapState, Result.discard]

theorem Message_serializeLocal_out :
    ∀ (m : Messaging.Message), m.present → ∀ (buf : t_buffer),
      m.serializeLocal (OutStream.mk buf) =
        .ok (MessageIds.toUint m._id) (m, ⟨buf ++ m.wire⟩)
  | .mk id none, h, _ => by simp [Messaging.Message.present] at h
  | .mk id (some p), h, buf => by
    have hp := ISerializable_serialize_out p (by simpa [Messaging.Message.present] using h)
      (buf ++ [0, MessageIds.toUint id])
    simp [Messaging.Message.serializeLocal, Messaging.Message.wire, Messaging.Message._id,
      OutStream_marshal_eq, hp]

end

theorem Message_serialize_out (m : Messaging.Message) (h : m.present)
    (buf : t_buffer) : m.serialize (OutStream.mk buf) = .ok () (m, ⟨buf ++ m.wire⟩) := by
  simp [Messaging.Message.serialize, Message_serializeLocal_out m h, Result.discard]

mutual

theorem ISerializable_serialize_in :
    ∀ (o : ISerializable), o.present → ∀ (rest : t_buffer),
      o.fresh.serialize (InStream.mk (o.wire ++ rest)) = .ok () (o, ⟨rest⟩)
  | .ofMyFirst o, _, rest => by
    simp [ISerializable.serialize, ISerializable.wire, ISerializable.fresh,
      MyFirst_serialize_in, Result.mapState]
  | .ofMySecond o, _, rest => by
    simp [ISerializable.serialize, ISerializable.wire, ISerializable.fresh,
      MySecond_serialize_in, Result.mapState]
  | .ofMessage m, h, rest => by
    have hm := Message_serializeLocal_in m
      (by simpa [ISerializable.present] using h) rest
    simp [ISerializable.serialize, ISerializable.wire, ISerializable.fresh, hm,
      Result.mapState, Result.discard]

theorem Message_serializeLocal_in :
    ∀ (m : Messaging.Message), m.present → ∀ (rest : t_buffer),
      m.fresh.serializeLocal (InStream.mk (m.wire ++ rest)) =
        .ok (MessageIds.toUint m._id) (m, ⟨rest⟩)
  | .mk id none, h, _ => by simp [Messaging.Message.present] at h
  | .mk id (some p), h, rest => by
    have hp := ISerializable_serialize_in p (by simpa [Messaging.Message.present] using h) rest
    simp [Messaging.Message.serializeLocal, Messaging.Message.wire, Messaging.Message._id,
      Messaging.Message.fresh, InStream_marshal_tagged, hp]

end

mutual

theorem ISerializable_wire_length :
    ∀ (o : ISerializable), o.wire.length = 2 * o.fieldCount
  | .ofMyFirst _ => rfl
  | .ofMySecond _ => rfl
  | .ofMessage m => by
    simpa [ISerializable.wire, ISerializable.fieldCount] using
      Message_wire_length m

theorem Message_wire_length :
    ∀ (m : Messaging.Message), m.wire.length = 2 * m.fieldCount
  | .mk _ none => rfl
  | .mk _ (some p) => by
    have hp := ISerializable_wire_length p
    simp [Messaging.Message.wire, Messaging.Message.fieldCount, hp]
    omega

end

mutual

theorem ISerializable_wire_even :
    ∀ (o : ISerializable) (i : Nat), i % 2 = 0 → i < o.wire.length → o.wire[i]? = some 0
  | .ofMyFirst o, i, he, hi => by
    simp [ISerializable.wire] at hi
    interval_cases i <;> simp_all [ISerializable.wire]
  | .ofMySecond o, i, he, hi => by
    simp [ISerializable.wire] at hi
    interval_cases i <;> simp_all [ISerializable.wire]
  | .ofMessage m, i, he, hi => by
    simpa [ISerializable.wire] using
      Message_wire_even m i he (by simpa [ISerializable.wire] using hi)

theorem Message_wire_even :
    ∀ (m : Messaging.Message) (i : Nat), i % 2 = 0 → i < m.wire.length → m.wire[i]? = some 0
  | .mk _ none, i, he, hi => by
    simp [Messaging.Message.wire] at hi
    interval_cases i <;> simp_all [Messaging.Message.wire]
  | .mk _ (some p), i, he, hi => by
    match i with
    | 0 => simp [Messaging.Message.wire]
    | 1 => simp at he
    | j + 2 =>
      have hj : j < p.wire.length := by
        simp [Messaging.Message.wire] at hi
        omega
      have := ISerializable_wire_even p j (by omega) hj
      simpa [Messaging.Message.wire] using this

end

theorem MyFirst_serialize_in_corrupt (o : MyFirst) (a b t : uint8_t) (i : Nat)
    (rest : t_buffer) (he : i % 2 = 0) (hi : i < 4) (ht : t ≠ 0) :
    ∃ st, o.serialize (InStream.mk (([0, a, 0, b] : t_buffer).set i t ++ rest)) =
      .thrown .formatViolation st := by
  interval_cases i <;>
    simp [MyFirst.serialize, InStream_marshal_tagged, InStream_marshal_bad_tag, ht,
      Result.mapState, Result.andThen] at he ⊢

theorem MySecond_serialize_in_corrupt (o : MySecond) (a b c d t : uint8_t) (i : Nat)
    (rest : t_buffer) (he : i % 2 = 0) (hi : i < 8) (ht : t ≠ 0) :
    ∃ st, o.serialize (InStream.mk (([0, a, 0, b, 0, c, 0, d] : t_buffer).set i t ++ rest)) =
      .thrown .formatViolation st := by
  interval_cases i <;>
    simp [MySecond.serialize, marshalObject, MyFirst.serialize, InStream_marshal_tagged,
      InStream_marshal_bad_tag, ht, Result.mapState, Result.andThen] at he ⊢

mutual

theorem ISerializable_serialize_in_corrupt :
    ∀ (o : ISerializable), o.present → ∀ (i : Nat) (t : uint8_t) (rest : t_buffer),
      i % 2 = 0 → i < o.wire.length → t ≠ 0 →
      ∃ st, o.fresh.serialize (InStream.mk (o.wire.set i t ++ rest)) =
        .thrown .formatViolation st
  | .ofMyFirst o, _, i, t, rest, he, hi, ht => by
    obtain ⟨st, hst⟩ := MyFirst_serialize_in_corrupt MyFirst.new o._val001 o._val002 t i rest
      he (by simpa [ISerializable.wire] using hi) ht
    simp [ISerializable.serialize, ISerializable.wire, ISerializable.fresh, hst,
      Result.mapState]
  | .ofMySecond o, _, i, t, rest, he, hi, ht => by
    obtain ⟨st, hst⟩ := MySecond_serialize_in_corrupt MySecond.new o._myFirst._val001
      o._myFirst._val002 o._val003 o._val004 t i rest
      he (by simpa [ISerializable.wire] using hi) ht
    simp [ISerializable.serialize, ISerializable.wire, ISerializable.fresh, hst,
      Result.mapState]
  | .ofMessage m, h, i, t, rest, he, hi, ht => by
    obtain ⟨st, hst⟩ := Message_serializeLocal_in_corrupt m
      (by simpa [ISerializable.present] using h) i t rest he
      (by simpa [ISerializable.wire] using hi) ht
    simp [ISerializable.serialize, ISerializable.wire, ISerializable.fresh, hst,
      Result.mapState, Result.discard]

theorem Message_serializeLocal_in_corrupt :
    ∀ (m : Messaging.Message), m.present → ∀ (i : Nat) (t : uint8_t) (rest : t_buffer),
      i % 2 = 0 → i < m.wire.length → t ≠ 0 →
      ∃ st, m.fresh.serializeLocal (InStream.mk (m.wire.set i t ++ rest)) =
        .thrown .formatViolation st
  | .mk id none, h, _, _, _, _, _, _ => by simp [Messaging.Message.present] at h
  | .mk id (some p), h, i, t, rest, he, hi, ht => by
    match i with
    | 0 =>
      simp [Messaging.Message.serializeLocal, Messaging.Message.wire,
        Messaging.Message.fresh, InStream_marshal_bad_tag, ht]
    | 1 => simp at he
    | j + 2 =>
      have hj : j < p.wire.length := by
        simp [Messaging.Message.wire] at hi
        omega
      obtain ⟨st, hst⟩ := ISerializable_serialize_in_corrupt p
        (by simpa [Messaging.Message.present] using h) j t rest (by omega) hj ht
      simp [Messaging.Message.serializeLocal, Messaging.Message.wire,
        Messaging.Message.fresh, InStream_marshal_tagged, hst]

end



theorem Send_package_of_present (self : Send) (m : Message) (h : m.present) :
    self.package m =
      .ok (self._toOutput._buffer ++ m.wire) (⟨⟨self._toOutput._buffer ++ m.wire⟩⟩, m) := by
  have hs := Message_serialize_out m h self._toOutput._buffer
  simp only [Send.package, hs, OutStream.getbuffer]

/-! ## Round trips -/

/-- C1: for all bytes a, b, c, d, serializing a `MyFirst` with fields (a, b) into an empty
`OutStream` and then serializing a newly constructed `MyFirst` against an `InStream` on
the produced buffer returns normally and leaves the object equal to the original one;
the same holds for a `MySecond` with outer fields (c, d) and inner `MyFirst` (a, b). -/
theorem round_trip_MyFirst_MySecond (a b c d : uint8_t) :
    (∃ output : OutStream,
      MyFirst.serialize ⟨a, b⟩ OutStream.new = .ok () (⟨a, b⟩, output) ∧
      MyFirst.serialize MyFirst.new (InStream.mk output.getbuffer) =
        .ok () (⟨a, b⟩, ⟨[]⟩)) ∧
    (∃ output : OutStream,
      MySecond.serialize ⟨c, d, ⟨a, b⟩⟩ OutStream.new = .ok () (⟨c, d, ⟨a, b⟩⟩, output) ∧
      MySecond.serialize MySecond.new (InStream.mk output.getbuffer) =
        .ok () (⟨c, d, ⟨a, b⟩⟩, ⟨[]⟩)) := by
  refine ⟨⟨_, MyFirst_serialize_out _ _, ?_⟩, ⟨_, MySecond_serialize_out _ _, ?_⟩⟩
  · simpa [OutStream.getbuffer] using MyFirst_serialize_in MyFirst.new a b []
  · simpa [OutStream.getbuffer] using MySecond_serialize_in MySecond.new a b c d []

/-- C2: with the factory of `main` (both creators installed under their identifiers),
for a message `msg001` carrying a `MyFirst` with any fields (a, b), and for a message
`msg002` carrying a `MySecond` with any fields, `recieve::package` on the buffer that
`Send::package` returns on a newly created `Send` returns normally, and the returned
message has the same identifier and a payload of the same class with the same fields.
The receiver may hold any earlier input. -/
theorem envelope_round_trip (a b c d : uint8_t) (input : InStream) :
    (∃ buf : t_buffer,
      Send.new.package (.mk MessageIds.msg001 (some (.ofMyFirst ⟨a, b⟩))) =
        .ok buf (⟨⟨buf⟩⟩, .mk MessageIds.msg001 (some (.ofMyFirst ⟨a, b⟩))) ∧
      (recieve.mk input MsgFactory).package buf =
        .ok (.mk MessageIds.msg001 (some (.ofMyFirst ⟨a, b⟩))) ⟨⟨[]⟩, MsgFactory⟩) ∧
    (∃ buf : t_buffer,
      Send.new.package (.mk MessageIds.msg002 (some (.ofMySecond ⟨c, d, ⟨a, b⟩⟩))) =
        .ok buf (⟨⟨buf⟩⟩, .mk MessageIds.msg002 (some (.ofMySecond ⟨c, d, ⟨a, b⟩⟩))) ∧
      (recieve.mk input MsgFactory).package buf =
        .ok (.mk MessageIds.msg002 (some (.ofMySecond ⟨c, d, ⟨a, b⟩⟩)))
          ⟨⟨[]⟩, MsgFactory⟩) := by
  constructor
  · refine ⟨[0, 0, 0, a, 0, b], ?_, ?_⟩
    · rw [Send_package_of_present Send.new
        (.mk MessageIds.msg001 (some (.ofMyFirst ⟨a, b⟩))) rfl]
      simp [Send.new, OutStream.new, Message.wire, ISerializable.wire, MessageIds.toUint,
        MessageIds.msg001]
    · have h := Message_serializeLocal_in (.mk MessageIds.msg001 (some (.ofMyFirst ⟨a, b⟩)))
        rfl []
      simp [Message.wire, ISerializable.wire, MessageIds.toUint, MessageIds.msg001,
        Message.fresh, ISerializable.fresh, Message._id] at h
      simp [recieve.package, InStream.setBuffer, InStream.peek, Factory.fabricate,
        MsgFactory, Factory.install, Factory.new, Msg001ProductionLine.getId,
        Msg002ProductionLine.getId, Msg001ProductionLine, MessageIds.msg001,
        MessageIds.msg002, Message.serialize, h, Result.discard]
  · refine ⟨[0, 1, 0, a, 0, b, 0, c, 0, d], ?_, ?_⟩
    · rw [Send_package_of_present Send.new
        (.mk MessageIds.msg002 (some (.ofMySecond ⟨c, d, ⟨a, b⟩⟩))) rfl]
      simp [Send.new, OutStream.new, Message.wire, ISerializable.wire, MessageIds.toUint,
        MessageIds.msg002]
    · have h := Message_serializeLocal_in
        (.mk MessageIds.msg002 (some (.ofMySecond ⟨c, d, ⟨a, b⟩⟩))) rfl []
      simp [Message.wire, ISerializable.wire, MessageIds.toUint, MessageIds.msg002,
        Message.fresh, ISerializable.fresh, Message._id] at h
      simp [recieve.package, InStream.setBuffer, InStream.peek, Factory.fabricate,
        MsgFactory, Factory.install, Factory.new, Msg001ProductionLine.getId,
        Msg002ProductionLine.getId, Msg002ProductionLine, MessageIds.msg001,
        MessageIds.msg002, Message.serialize, h, Result.discard]

/-! ## The two `marshal` overloads for a byte -/

/-- C3: on a buffer of at least two bytes, `InStream::marshal(std::uint8_t&)` throws the
format-violation exception exactly when the head byte is not the tag `unsignedByte` (0);
when the head byte is 0 it returns normally, the output slot holds the byte that was at
index 1, and the buffer is the original one without its first two bytes. -/
theorem InStream_marshal_contract (self : InStream) (v : uint8_t)
    (hlen : 2 ≤ self._buffer.length) :
    ((∃ st, self.marshal v = .thrown .formatViolation st) ↔
      self._buffer.head? ≠ some TV.unsignedByte) ∧
    (self._buffer.head? = some TV.unsignedByte →
      ∃ value, self._buffer[1]? = some value ∧
        self.marshal v = .ok () (⟨self._buffer.drop 2⟩, value)) := by
  obtain ⟨buf⟩ := self
  match buf, hlen with
  | front :: second :: rest, _ =>
    by_cases hf : front = TV.unsignedByte <;> simp [InStream.marshal, hf]

/-- Instance of C3 on the buffer `[0, 0x55, 0, 0xAA]` with output slot 7. -/
theorem InStream_marshal_contract_witness :
    2 ≤ (InStream.mk [0, 0x55, 0, 0xAA])._buffer.length ∧
    (((∃ st, (InStream.mk [0, 0x55, 0, 0xAA]).marshal 7 = .thrown .formatViolation st) ↔
      (InStream.mk [0, 0x55, 0, 0xAA])._buffer.head? ≠ some TV.unsignedByte) ∧
    ((InStream.mk [0, 0x55, 0, 0xAA])._buffer.head? = some TV.unsignedByte →
      ∃ value, (InStream.mk [0, 0x55, 0, 0xAA])._buffer[1]? = some value ∧
        (InStream.mk [0, 0x55, 0, 0xAA]).marshal 7 =
          .ok () (⟨(InStream.mk [0, 0x55, 0, 0xAA])._buffer.drop 2⟩, value))) :=
  ⟨by decide, InStream_marshal_contract ⟨[0, 0x55, 0, 0xAA]⟩ 7 (by decide)⟩

/-- C4: `OutStream::marshal(std::uint8_t&)` always returns normally; whatever the buffer
held before and whatever the byte `v`, the buffer afterwards is the earlier content
followed by the two bytes 0 (tag `unsignedByte`) and `v`, so the earlier bytes are still
there, at the same places, and `v` itself is unchanged. -/
theorem OutStream_marshal_appends (self : OutStream) (v : uint8_t) :
    self.marshal v = .ok () (⟨self._buffer ++ [TV.unsignedByte, v]⟩, v) ∧
    (self._buffer ++ [TV.unsignedByte, v]).take self._buffer.length = self._buffer ∧
    TV.unsignedByte = 0 := by
  refine ⟨?_, ?_, rfl⟩
  · simp [OutStream.marshal]
  · simp

/-! ## The tag invariant -/

/-- C5: let `b` be the buffer obtained by serializing an object `o` (a `MyFirst`, a
`MySecond` or a `Message`, all payloads present) into an empty `OutStream`. For every
even index `i` below the length of `b` and every byte `t` other than 0, serializing a
newly constructed object of the same class against an `InStream` on `b` with the byte at
index `i` replaced by `t` throws the format-violation exception. -/
theorem corrupted_tag_rejected (o : ISerializable) (ho : o.present) :
    ∃ b : t_buffer,
      o.serialize OutStream.new = .ok () (o, ⟨b⟩) ∧
      ∀ (i : Nat) (t : uint8_t), i % 2 = 0 → i < b.length → t ≠ 0 →
        ∃ st, o.fresh.serialize (InStream.mk (b.set i t)) = .thrown .formatViolation st := by
  refine ⟨o.wire, by simpa [OutStream.new] using ISerializable_serialize_out o ho [], ?_⟩
  intro i t he hi ht
  simpa using ISerializable_serialize_in_corrupt o ho i t [] he hi ht

/-- Instance of C5 on the message `Message(msg002, MySecond(0x99, 0x66, MyFirst(0x55, 0xAA)))`. -/
theorem corrupted_tag_rejected_witness :
    (ISerializable.ofMessage
      (.mk MessageIds.msg002 (some (.ofMySecond ⟨0x99, 0x66, ⟨0x55, 0xAA⟩⟩)))).present = true ∧
    ∃ b : t_buffer,
      (ISerializable.ofMessage
        (.mk MessageIds.msg002 (some (.ofMySecond ⟨0x99, 0x66, ⟨0x55, 0xAA⟩⟩)))).serialize
          OutStream.new =
        .ok () (.ofMessage
          (.mk MessageIds.msg002 (some (.ofMySecond ⟨0x99, 0x66, ⟨0x55, 0xAA⟩⟩))), ⟨b⟩) ∧
      ∀ (i : Nat) (t : uint8_t), i % 2 = 0 → i < b.length → t ≠ 0 →
        ∃ st, (ISerializable.ofMessage
          (.mk MessageIds.msg002 (some (.ofMySecond ⟨0x99, 0x66, ⟨0x55, 0xAA⟩⟩)))).fresh.serialize
            (InStream.mk (b.set i t)) = .thrown .formatViolation st :=
  ⟨rfl, corrupted_tag_rejected
    (.ofMessage (.mk MessageIds.msg002 (some (.ofMySecond ⟨0x99, 0x66, ⟨0x55, 0xAA⟩⟩)))) rfl⟩

/-- C6: for every object `o` (a `MyFirst`, a `MySecond` or a `Message`, all payloads
present), serializing it into an empty `OutStream` returns normally with a buffer of
length twice the number of visited byte fields (2 for `MyFirst`, 4 for `MySecond`, one
more than the payload for a `Message`), and every byte at an even index of that buffer
is 0, the tag `unsignedByte`. -/
theorem encoded_buffer_tag_invariant (o : ISerializable) (ho : o.present) :
    ∃ b : t_buffer,
      o.serialize OutStream.new = .ok () (o, ⟨b⟩) ∧
      b.length = 2 * o.fieldCount ∧
      (∀ i : Nat, i % 2 = 0 → i < b.length → b[i]? = some TV.unsignedByte) ∧
      (∀ f : MyFirst, (ISerializable.ofMyFirst f).fieldCount = 2) ∧
      (∀ g : MySecond, (ISerializable.ofMySecond g).fieldCount = 4) ∧
      (∀ (id : MessageIds.type) (p : ISerializable),
        (ISerializable.ofMessage (.mk id (some p))).fieldCount = 1 + p.fieldCount) := by
  refine ⟨o.wire, by simpa [OutStream.new] using ISerializable_serialize_out o ho [], ISerializable_wire_length o,
    fun i he hi => ISerializable_wire_even o i he hi, fun _ => rfl, fun _ => rfl, fun _ _ => ?_⟩
  simp [ISerializable.fieldCount, Message.fieldCount]

/-- Instance of C6 on the message `Message(msg001, MyFirst(0x55, 0xAA))`. -/
theorem encoded_buffer_tag_invariant_witness :
    (ISerializable.ofMessage
      (.mk MessageIds.msg001 (some (.ofMyFirst ⟨0x55, 0xAA⟩)))).present = true ∧
    ∃ b : t_buffer,
      (ISerializable.ofMessage
        (.mk MessageIds.msg001 (some (.ofMyFirst ⟨0x55, 0xAA⟩)))).serialize OutStream.new =
        .ok () (.ofMessage (.mk MessageIds.msg001 (some (.ofMyFirst ⟨0x55, 0xAA⟩))), ⟨b⟩) ∧
      b.length = 2 * (ISerializable.ofMessage
        (.mk MessageIds.msg001 (some (.ofMyFirst ⟨0x55, 0xAA⟩)))).fieldCount ∧
      (∀ i : Nat, i % 2 = 0 → i < b.length → b[i]? = some TV.unsignedByte) ∧
      (∀ f : MyFirst, (ISerializable.ofMyFirst f).fieldCount = 2) ∧
      (∀ g : MySecond, (ISerializable.ofMySecond g).fieldCount = 4) ∧
      (∀ (id : MessageIds.type) (p : ISerializable),
        (ISerializable.ofMessage (.mk id (some p))).fieldCount = 1 + p.fieldCount) :=
  ⟨rfl, encoded_buffer_tag_invariant
    (.ofMessage (.mk MessageIds.msg001 (some (.ofMyFirst ⟨0x55, 0xAA⟩)))) rfl⟩

/-! ## Peek and the discriminant -/

/-- C7: for every message `m` with any identifier and a present payload, `InStream::peek`
on the buffer obtained by serializing `m` into an empty `OutStream` returns the byte
value of the identifier of `m`, and serializing a newly constructed message of the same
kind against an `InStream` on that buffer returns normally having read that same value
into the local identifier. -/
theorem discriminant_agreement (m : Message) (hm : m.present) :
    ∃ b : t_buffer,
      m.serialize OutStream.new = .ok () (m, ⟨b⟩) ∧
      (InStream.mk b).peek = .ok (MessageIds.toUint m._id) ⟨b⟩ ∧
      ∃ st, m.fresh.serializeLocal (InStream.mk b) = .ok (MessageIds.toUint m._id) st := by
  refine ⟨m.wire, by simpa [OutStream.new] using Message_serialize_out m hm [], ?_,
    ⟨_, by simpa using Message_serializeLocal_in m hm []⟩⟩
  match m, hm with
  | .mk id (some p), _ => simp [Message.wire, InStream.peek, Message._id]

/-- Instance of C7 on the message `Message(msg002, MySecond(0x99, 0x66, MyFirst(0x55, 0xAA)))`. -/
theorem discriminant_agreement_witness :
    (Message.mk MessageIds.msg002
      (some (.ofMySecond ⟨0x99, 0x66, ⟨0x55, 0xAA⟩⟩))).present = true ∧
    ∃ b : t_buffer,
      (Message.mk MessageIds.msg002
        (some (.ofMySecond ⟨0x99, 0x66, ⟨0x55, 0xAA⟩⟩))).serialize OutStream.new =
        .ok () (.mk MessageIds.msg002 (some (.ofMySecond ⟨0x99, 0x66, ⟨0x55, 0xAA⟩⟩)), ⟨b⟩) ∧
      (InStream.mk b).peek =
        .ok (MessageIds.toUint (Message.mk MessageIds.msg002
          (some (.ofMySecond ⟨0x99, 0x66, ⟨0x55, 0xAA⟩⟩)))._id) ⟨b⟩ ∧
      ∃ st, (Message.mk MessageIds.msg002
          (some (.ofMySecond ⟨0x99, 0x66, ⟨0x55, 0xAA⟩⟩))).fresh.serializeLocal
            (InStream.mk b) =
        .ok (MessageIds.toUint (Message.mk MessageIds.msg002
          (some (.ofMySecond ⟨0x99, 0x66, ⟨0x55, 0xAA⟩⟩)))._id) st :=
  ⟨rfl, discriminant_agreement
    (.mk MessageIds.msg002 (some (.ofMySecond ⟨0x99, 0x66, ⟨0x55, 0xAA⟩⟩))) rfl⟩

/-- C8, as stated, fails: on the buffer `[0, 0x11, 0, 0x22]`, which holds two tagged
slots, `InStream::peek` returns 0x11, the value of the first slot, and not 0x22, the
value of the second slot. -/
theorem peek_second_slot_counterexample :
    4 ≤ (InStream.mk [0, 0x11, 0, 0x22])._buffer.length ∧
    (InStream.mk [0, 0x11, 0, 0x22])._buffer[3]? = some 0x22 ∧
    (InStream.mk [0, 0x11, 0, 0x22]).peek = .ok 0x11 ⟨[0, 0x11, 0, 0x22]⟩ ∧
    (InStream.mk [0, 0x11, 0, 0x22]).peek ≠ .ok 0x22 ⟨[0, 0x11, 0, 0x22]⟩ := by
  refine ⟨by decide, rfl, rfl, by decide⟩

/-- C8, amended: for every buffer holding at least two tagged slots (at least four
bytes), `InStream::peek` returns the value byte of the first tagged slot, the byte at
index 1: it skips the first tag only, and it leaves the buffer unchanged. -/
theorem peek_first_slot (self : InStream) (hlen : 4 ≤ self._buffer.length) :
    ∃ value, self._buffer[1]? = some value ∧ self.peek = .ok value self := by
  obtain ⟨buf⟩ := self
  match buf, hlen with
  | _ :: value :: _, _ => exact ⟨value, by simp, rfl⟩

/-- Instance of amended C8 on the buffer `[0, 0x11, 0, 0x22]`. -/
theorem peek_first_slot_witness :
    4 ≤ (InStream.mk [0, 0x11, 0, 0x22])._buffer.length ∧
    ∃ value, (InStream.mk [0, 0x11, 0, 0x22])._buffer[1]? = some value ∧
      (InStream.mk [0, 0x11, 0, 0x22]).peek = .ok value (InStream.mk [0, 0x11, 0, 0x22]) :=
  ⟨by decide, peek_first_slot ⟨[0, 0x11, 0, 0x22]⟩ (by decide)⟩

/-! ## Sender and receiver -/

/-- C9, as stated, fails: a second `Send::package` call on the same `Send` returns the
bytes of the first message followed by the bytes of the second one, which is not the
encoding of the second message alone. Here both calls package
`Message(msg001, MyFirst(0x55, 0xAA))`, whose encoding is `[0, 0, 0, 0x55, 0, 0xAA]`. -/
theorem Send_package_fresh_counterexample :
    (Message.mk MessageIds.msg001 (some (.ofMyFirst ⟨0x55, 0xAA⟩))).serialize OutStream.new =
      .ok () (.mk MessageIds.msg001 (some (.ofMyFirst ⟨0x55, 0xAA⟩)),
        ⟨[0, 0, 0, 0x55, 0, 0xAA]⟩) ∧
    Send.new.package (.mk MessageIds.msg001 (some (.ofMyFirst ⟨0x55, 0xAA⟩))) =
      .ok [0, 0, 0, 0x55, 0, 0xAA]
        (⟨⟨[0, 0, 0, 0x55, 0, 0xAA]⟩⟩, .mk MessageIds.msg001 (some (.ofMyFirst ⟨0x55, 0xAA⟩))) ∧
    (Send.mk ⟨[0, 0, 0, 0x55, 0, 0xAA]⟩).package
        (.mk MessageIds.msg001 (some (.ofMyFirst ⟨0x55, 0xAA⟩))) =
      .ok [0, 0, 0, 0x55, 0, 0xAA, 0, 0, 0, 0x55, 0, 0xAA]
        (⟨⟨[0, 0, 0, 0x55, 0, 0xAA, 0, 0, 0, 0x55, 0, 0xAA]⟩⟩,
          .mk MessageIds.msg001 (some (.ofMyFirst ⟨0x55, 0xAA⟩))) ∧
    ([0, 0, 0, 0x55, 0, 0xAA, 0, 0, 0, 0x55, 0, 0xAA] : t_buffer) ≠
      [0, 0, 0, 0x55, 0, 0xAA] := by
  refine ⟨rfl, rfl, rfl, by decide⟩

/-- C9, amended: for every `Send` object, whatever earlier `package` calls left in its
stream, and every message `m` with a present payload, `package(m)` returns normally the
bytes already held by the stream of the `Send` followed by the encoding of `m` as
produced into an empty `OutStream`, and the stream keeps these bytes; on a newly
created `Send` the returned buffer is the encoding of `m` alone. -/
theorem Send_package_accumulates (self : Send) (m : Message) (hm : m.present) :
    ∃ enc : t_buffer,
      m.serialize OutStream.new = .ok () (m, ⟨enc⟩) ∧
      self.package m =
        .ok (self._toOutput.getbuffer ++ enc) (⟨⟨self._toOutput.getbuffer ++ enc⟩⟩, m) ∧
      Send.new.package m = .ok enc (⟨⟨enc⟩⟩, m) := by
  refine ⟨m.wire, by simpa [OutStream.new] using Message_serialize_out m hm [],
    Send_package_of_present self m hm, ?_⟩
  simpa [Send.new, OutStream.new] using Send_package_of_present Send.new m hm

/-- Instance of amended C9: a `Send` that already packaged one message. -/
theorem Send_package_accumulates_witness :
    (Message.mk MessageIds.msg002
      (some (.ofMySecond ⟨0x99, 0x66, ⟨0x55, 0xAA⟩⟩))).present = true ∧
    ∃ enc : t_buffer,
      (Message.mk MessageIds.msg002
        (some (.ofMySecond ⟨0x99, 0x66, ⟨0x55, 0xAA⟩⟩))).serialize OutStream.new =
        .ok () (.mk MessageIds.msg002 (some (.ofMySecond ⟨0x99, 0x66, ⟨0x55, 0xAA⟩⟩)),
          ⟨enc⟩) ∧
      (Send.mk ⟨[0, 0, 0, 0x55, 0, 0xAA]⟩).package
          (.mk MessageIds.msg002 (some (.ofMySecond ⟨0x99, 0x66, ⟨0x55, 0xAA⟩⟩))) =
        .ok ((Send.mk ⟨[0, 0, 0, 0x55, 0, 0xAA]⟩)._toOutput.getbuffer ++ enc)
          (⟨⟨(Send.mk ⟨[0, 0, 0, 0x55, 0, 0xAA]⟩)._toOutput.getbuffer ++ enc⟩⟩,
            .mk MessageIds.msg002 (some (.ofMySecond ⟨0x99, 0x66, ⟨0x55, 0xAA⟩⟩))) ∧
      Send.new.package (.mk MessageIds.msg002 (some (.ofMySecond ⟨0x99, 0x66, ⟨0x55, 0xAA⟩⟩))) =
        .ok enc (⟨⟨enc⟩⟩,
          .mk MessageIds.msg002 (some (.ofMySecond ⟨0x99, 0x66, ⟨0x55, 0xAA⟩⟩))) :=
  ⟨rfl, Send_package_accumulates ⟨⟨[0, 0, 0, 0x55, 0, 0xAA]⟩⟩
    (.mk MessageIds.msg002 (some (.ofMySecond ⟨0x99, 0x66, ⟨0x55, 0xAA⟩⟩))) rfl⟩

/-- C10: for every factory and every buffer of at least two bytes, when no entry is
registered under the identifier found at index 1 of the buffer, `recieve::package`
throws the unknown-message-kind exception; at the throw the bound stream still holds
the whole buffer (no byte was consumed) and no message is returned. -/
theorem package_unknown_discriminant (self : recieve) (buf : t_buffer) (id : uint8_t)
    (hlen : 2 ≤ buf.length) (hid : buf[1]? = some id)
    (hno : self._factory._manufacturingLines id = none) :
    self.package buf = .thrown .unknownMessageKind ⟨⟨buf⟩, self._factory⟩ := by
  match buf, hlen with
  | front :: second :: rest, _ =>
    have hsecond : second = id := by simpa using hid
    subst hsecond
    simp [recieve.package, InStream.setBuffer, InStream.peek, Factory.fabricate, hno]

/-- Instance of C10: the factory of `main` and a buffer whose identifier is 2. -/
theorem package_unknown_discriminant_witness :
    2 ≤ ([0, 2, 0, 0x55, 0, 0xAA] : t_buffer).length ∧
    ([0, 2, 0, 0x55, 0, 0xAA] : t_buffer)[1]? = some 2 ∧
    (recieve.new MsgFactory)._factory._manufacturingLines 2 = none ∧
    (recieve.new MsgFactory).package [0, 2, 0, 0x55, 0, 0xAA] =
      .thrown .unknownMessageKind
        ⟨⟨[0, 2, 0, 0x55, 0, 0xAA]⟩, (recieve.new MsgFactory)._factory⟩ :=
  ⟨by decide, rfl, rfl,
    package_unknown_discriminant (recieve.new MsgFactory) [0, 2, 0, 0x55, 0, 0xAA] 2
      (by decide) rfl rfl⟩

/-! ## The discriminant of a received message -/

theorem Message_serializeLocal_in_ok (product m : Message) (buf : t_buffer) (i : InStream)
    (v : uint8_t) (h : product.serializeLocal (InStream.mk buf) = .ok v (m, i)) :
    buf[1]? = some v ∧ m._id = product._id := by
  match product, buf with
  | .mk id none, _ => simp [Message.serializeLocal] at h
  | .mk id (some p), [] =>
    simp [Message.serializeLocal, IStream.marshal, InStream.marshal] at h
  | .mk id (some p), [front] =>
    by_cases hf : front = TV.unsignedByte <;>
      simp [Message.serializeLocal, IStream.marshal, InStream.marshal, hf] at h
  | .mk id (some p), front :: second :: rest =>
    by_cases hf : front = TV.unsignedByte
    · cases hp : p.serialize (InStream.mk rest) with
      | undefined =>
        simp [Message.serializeLocal, IStream.marshal, InStream.marshal, hf, hp] at h
      | thrown e st =>
        simp [Message.serializeLocal, IStream.marshal, InStream.marshal, hf, hp] at h
      | ok u st =>
        simp [Message.serializeLocal, IStream.marshal, InStream.marshal, hf, hp] at h
        obtain ⟨hv, hm, _⟩ := h
        subst hv
        subst hm
        simp [Message._id]
    · simp [Message.serializeLocal, IStream.marshal, InStream.marshal, hf] at h

theorem recieve_package_ok (self : recieve) (buf : t_buffer) (m : Message) (r : recieve)
    (h : self.package buf = .ok m r) :
    ∃ (peeked : uint8_t) (P : IProduce Message) (product : Message),
      buf[1]? = some peeked ∧
      self._factory._manufacturingLines peeked = some (some P) ∧
      P.Create = some product ∧
      product.serializeLocal (InStream.mk buf) = .ok peeked (m, r._input) := by
  match buf with
  | [] => simp [recieve.package, InStream.setBuffer, InStream.peek] at h
  | [_] => simp [recieve.package, InStream.setBuffer, InStream.peek] at h
  | front :: second :: rest =>
    cases hl : self._factory._manufacturingLines second with
    | none =>
      simp [recieve.package, InStream.setBuffer, InStream.peek, Factory.fabricate, hl] at h
    | some producer =>
      cases producer with
      | none =>
        simp [recieve.package, InStream.setBuffer, InStream.peek, Factory.fabricate, hl] at h
      | some P =>
        cases hc : P.Create with
        | none =>
          simp [recieve.package, InStream.setBuffer, InStream.peek, Factory.fabricate, hl,
            hc] at h
        | some product =>
          refine ⟨second, P, product, by simp, hl, hc, ?_⟩
          cases hs : product.serializeLocal (InStream.mk (front :: second :: rest)) with
          | undefined =>
            simp [recieve.package, InStream.setBuffer, InStream.peek, Factory.fabricate, hl,
              hc, Message.serialize, hs, Result.discard] at h
          | thrown e st =>
            simp [recieve.package, InStream.setBuffer, InStream.peek, Factory.fabricate, hl,
              hc, Message.serialize, hs, Result.discard] at h
          | ok v st =>
            simp [recieve.package, InStream.setBuffer, InStream.peek, Factory.fabricate, hl,
              hc, Message.serialize, hs, Result.discard] at h
            obtain ⟨hm, hr⟩ := h
            obtain ⟨m1, i1⟩ := st
            have hv := (Message_serializeLocal_in_ok _ _ _ _ _ hs).1
            simp at hv
            subst hv
            simp at hm
            subst hm
            subst hr
            rfl

theorem MsgFactory_keys (k : MessageIds.type) (P : IProduce Message) (product : Message)
    (h : MsgFactory._manufacturingLines k = some (some P)) (hc : P.Create = some product) :
    product._id = k := by
  simp only [MsgFactory, Factory.install, Factory.new, Msg001ProductionLine.getId,
    Msg002ProductionLine.getId] at h
  split at h
  · next hk =>
    simp only [Option.some.injEq] at h
    subst h
    subst hk
    simp only [Msg002ProductionLine, Option.some.injEq] at hc
    subst hc
    rfl
  · split at h
    · next hk =>
      simp only [Option.some.injEq] at h
      subst h
      subst hk
      simp only [Msg001ProductionLine, Option.some.injEq] at hc
      subst hc
      rfl
    · simp at h

/-- C11, as stated, fails: with `Msg001ProductionLine` installed under `msg002`,
`recieve::package` returns normally on the buffer `[0, 1, 0, 0x55, 0, 0xAA]`, the byte
peeked at index 1 is 1, and the identifier of the returned message is `msg001` (0). -/
theorem package_discriminant_field_counterexample :
    (recieve.new (Factory.new.install MessageIds.msg002 (some Msg001ProductionLine))).package
        [0, 1, 0, 0x55, 0, 0xAA] =
      .ok (.mk MessageIds.msg001 (some (.ofMyFirst ⟨0x55, 0xAA⟩)))
        ⟨⟨[]⟩, Factory.new.install MessageIds.msg002 (some Msg001ProductionLine)⟩ ∧
    (InStream.mk [0, 1, 0, 0x55, 0, 0xAA]).peek = .ok 1 ⟨[0, 1, 0, 0x55, 0, 0xAA]⟩ ∧
    (Message.mk MessageIds.msg001 (some (.ofMyFirst ⟨0x55, 0xAA⟩)))._id ≠ 1 := by
  refine ⟨rfl, rfl, by decide⟩

/-- C11, amended: for every factory and every buffer on which `recieve::package` returns
normally, the identifier value that the decode traversal of the fabricated message reads
equals the byte peeked from that buffer (the byte at index 1), so the two reads of the
discriminant agree; and when every creator of the factory is installed under the
identifier of the messages it creates, the identifier of the returned message equals
that byte as well. -/
theorem package_discriminant_reads_agree (self : recieve) (buf : t_buffer) (m : Message)
    (r : recieve) (h : self.package buf = .ok m r) :
    ∃ (peeked : uint8_t) (product : Message),
      (InStream.mk buf).peek = .ok peeked ⟨buf⟩ ∧
      self._factory.fabricate peeked = .ok (some product) self._factory ∧
      product.serializeLocal (InStream.mk buf) = .ok peeked (m, r._input) ∧
      ((∀ (k : MessageIds.type) (P : IProduce Message) (created : Message),
          self._factory._manufacturingLines k = some (some P) → P.Create = some created →
            created._id = k) →
        m._id = peeked) := by
  obtain ⟨peeked, P, product, hpeek, hl, hc, hs⟩ := recieve_package_ok self buf m r h
  refine ⟨peeked, product, ?_, ?_, hs, ?_⟩
  · match buf, hpeek with
    | _ :: second :: _, hpeek =>
      have : second = peeked := by simpa using hpeek
      subst this
      rfl
  · simp [Factory.fabricate, hl, hc]
  · intro hkeys
    rw [(Message_serializeLocal_in_ok _ _ _ _ _ hs).2]
    exact hkeys peeked P product hl hc

/-- Instance of amended C11: the factory of `main` and the buffer
`[0, 1, 0, 0x55, 0, 0xAA, 0, 0x99, 0, 0x66]`. -/
theorem package_discriminant_reads_agree_witness :
    (recieve.new MsgFactory).package [0, 1, 0, 0x55, 0, 0xAA, 0, 0x99, 0, 0x66] =
      .ok (.mk MessageIds.msg002 (some (.ofMySecond ⟨0x99, 0x66, ⟨0x55, 0xAA⟩⟩)))
        ⟨⟨[]⟩, MsgFactory⟩ ∧
    (∀ (k : MessageIds.type) (P : IProduce Message) (created : Message),
      MsgFactory._manufacturingLines k = some (some P) → P.Create = some created →
        created._id = k) ∧
    ∃ (peeked : uint8_t) (product : Message),
      (InStream.mk [0, 1, 0, 0x55, 0, 0xAA, 0, 0x99, 0, 0x66]).peek =
        .ok peeked ⟨[0, 1, 0, 0x55, 0, 0xAA, 0, 0x99, 0, 0x66]⟩ ∧
      (recieve.new MsgFactory)._factory.fabricate peeked =
        .ok (some product) (recieve.new MsgFactory)._factory ∧
      product.serializeLocal (InStream.mk [0, 1, 0, 0x55, 0, 0xAA, 0, 0x99, 0, 0x66]) =
        .ok peeked (.mk MessageIds.msg002 (some (.ofMySecond ⟨0x99, 0x66, ⟨0x55, 0xAA⟩⟩)),
          (recieve.mk ⟨[]⟩ MsgFactory)._input) ∧
      ((∀ (k : MessageIds.type) (P : IProduce Message) (created : Message),
          (recieve.new MsgFactory)._factory._manufacturingLines k = some (some P) →
            P.Create = some created → created._id = k) →
        (Message.mk MessageIds.msg002
          (some (.ofMySecond ⟨0x99, 0x66, ⟨0x55, 0xAA⟩⟩)))._id = peeked) :=
  ⟨rfl, MsgFactory_keys, package_discriminant_reads_agree (recieve.new MsgFactory)
    [0, 1, 0, 0x55, 0, 0xAA, 0, 0x99, 0, 0x66]
    (.mk MessageIds.msg002 (some (.ofMySecond ⟨0x99, 0x66, ⟨0x55, 0xAA⟩⟩)))
    ⟨⟨[]⟩, MsgFactory⟩ rfl⟩

/-! ## The factory -/

/-- C12, as stated, fails: with a creator whose `Create()` returns `nullptr` installed
under `msg001`, an entry is registered under `msg001` and `Factory::fabricate(msg001)`
still returns `nullptr` without throwing. -/
theorem fabricate_null_counterexample :
    ((Factory.new : t_factory).install MessageIds.msg001
        (some ⟨none⟩))._manufacturingLines MessageIds.msg001 ≠ none ∧
    ((Factory.new : t_factory).install MessageIds.msg001 (some ⟨none⟩)).fabricate
        MessageIds.msg001 =
      .ok none ((Factory.new : t_factory).install MessageIds.msg001 (some ⟨none⟩)) := by
  constructor
  · simp [Factory.install]
  · rfl

/-- C12, amended: `Factory::fabricate(d)` returns `nullptr`, without throwing, when no
entry is registered under `d`; it throws the internal-consistency exception exactly when
the entry registered under `d` is a null producer; otherwise it returns the pointer that
`Create()` of the producer registered under `d` returns, the created product. So it
returns `nullptr` exactly when no entry is registered under `d` or the registered
creator itself returns `nullptr`. The factory is left unchanged, and fabricating under
a key that was never installed throws nothing. -/
theorem fabricate_outcomes {product productTag : Type} (self : Factory product productTag)
    (d : productTag) :
    (self._manufacturingLines d = none → self.fabricate d = .ok none self) ∧
    (self.fabricate d = .ok none self ↔
      self._manufacturingLines d = none ∨
        ∃ P : IProduce product, self._manufacturingLines d = some (some P) ∧
          P.Create = none) ∧
    ((∃ st, self.fabricate d = .thrown .registryInconsistency st) ↔
      self._manufacturingLines d = some none) ∧
    (self.fabricate d = .thrown .registryInconsistency self ↔
      self._manufacturingLines d = some none) ∧
    (∀ P : IProduce product, self._manufacturingLines d = some (some P) →
      self.fabricate d = .ok P.Create self) ∧
    (∀ (P : IProduce product) (created : product),
      self._manufacturingLines d = some (some P) → P.Create = some created →
        self.fabricate d = .ok (some created) self) ∧
    (self._manufacturingLines d = none →
      ∀ (e : Exception) (st : Factory product productTag),
        self.fabricate d ≠ .thrown e st) ∧
    (Factory.new : Factory product productTag).fabricate d = .ok none Factory.new := by
  cases hl : self._manufacturingLines d with
  | none => simp [Factory.fabricate, hl, Factory.new]
  | some producer =>
    cases producer with
    | none => simp [Factory.fabricate, hl, Factory.new]
    | some P =>
      simp only [Factory.fabricate, hl, Factory.new]
      refine ⟨by simp, by simp, by simp, by simp, ?_, ?_, by simp, trivial⟩
      · intro P2 h
        simp only [Option.some.injEq] at h
        rw [h]
      · intro P2 created h hc
        simp only [Option.some.injEq] at h
        rw [h, hc]

/-- C13: after `install(k, P)` the entry under `k` is `P` and nothing else, whatever was
registered under `k` before, so `fabricate(k)` returns the product of `P`; under every
other key `fabricate` gives the outcome it gave before the install. With creators `p1`
and `p2` installed under 1 and 2, `fabricate(2)` returns the product of `p2` and
`fabricate(1)` the product of `p1`. -/
theorem install_then_fabricate {product : Type} (self : Factory product MessageIds.type)
    (k k2 : MessageIds.type) (P p1 p2 : IProduce product) (Q R : Option (IProduce product))
    (hne : k2 ≠ k) :
    (self.install k (some P)).fabricate k = .ok P.Create (self.install k (some P)) ∧
    ((self.install k R).install k (some P)).fabricate k =
      .ok P.Create ((self.install k R).install k (some P)) ∧
    (self.install k Q)._manufacturingLines k = some Q ∧
    ((self.install k Q).fabricate k2).mapState (fun _ => ()) =
      (self.fabricate k2).mapState (fun _ => ()) ∧
    ((self.install 1 (some p1)).install 2 (some p2)).fabricate 2 =
      .ok p2.Create ((self.install 1 (some p1)).install 2 (some p2)) ∧
    ((self.install 1 (some p1)).install 2 (some p2)).fabricate 1 =
      .ok p1.Create ((self.install 1 (some p1)).install 2 (some p2)) := by
  refine ⟨?_, ?_, ?_, ?_, ?_, ?_⟩
  · simp [Factory.fabricate, Factory.install]
  · simp [Factory.fabricate, Factory.install]
  · simp [Factory.install]
  · simp only [Factory.fabricate, Factory.install, hne, if_false]
    cases hl : self._manufacturingLines k2 with
    | none => simp [Result.mapState]
    | some producer =>
      cases producer with
      | none => simp [Result.mapState]
      | some P2 => simp [Result.mapState]
  · simp [Factory.fabricate, Factory.install]
  · simp [Factory.fabricate, Factory.install]

/-- Instance of C13: a factory that holds `Msg001ProductionLine` under 1, into which
`Msg002ProductionLine` is installed under 2, and the key 0, which is never installed. -/
theorem install_then_fabricate_witness :
    (0 : MessageIds.type) ≠ 2 ∧
    ((((Factory.new : t_factory).install 1 (some Msg001ProductionLine)).install 2 (some Msg002ProductionLine)).fabricate 2 =
      .ok Msg002ProductionLine.Create
        (((Factory.new : t_factory).install 1 (some Msg001ProductionLine)).install 2 (some Msg002ProductionLine)) ∧
    ((((Factory.new : t_factory).install 1 (some Msg001ProductionLine)).install 2 none).install 2 (some Msg002ProductionLine)).fabricate 2 =
      .ok Msg002ProductionLine.Create
        ((((Factory.new : t_factory).install 1 (some Msg001ProductionLine)).install 2 none).install 2 (some Msg002ProductionLine)) ∧
    (((Factory.new : t_factory).install 1 (some Msg001ProductionLine)).install 2 (some Msg002ProductionLine))._manufacturingLines 2 =
      some (some Msg002ProductionLine) ∧
    ((((Factory.new : t_factory).install 1 (some Msg001ProductionLine)).install 2 (some Msg002ProductionLine)).fabricate 0).mapState (fun _ => ()) =
      (((Factory.new : t_factory).install 1 (some Msg001ProductionLine)).fabricate 0).mapState (fun _ => ()) ∧
    ((((Factory.new : t_factory).install 1 (some Msg001ProductionLine)).install 1 (some Msg001ProductionLine)).install 2
        (some Msg002ProductionLine)).fabricate 2 =
      .ok Msg002ProductionLine.Create
        ((((Factory.new : t_factory).install 1 (some Msg001ProductionLine)).install 1 (some Msg001ProductionLine)).install 2
          (some Msg002ProductionLine)) ∧
    ((((Factory.new : t_factory).install 1 (some Msg001ProductionLine)).install 1 (some Msg001ProductionLine)).install 2
        (some Msg002ProductionLine)).fabricate 1 =
      .ok Msg001ProductionLine.Create
        ((((Factory.new : t_factory).install 1 (some Msg001ProductionLine)).install 1 (some Msg001ProductionLine)).install 2
          (some Msg002ProductionLine))) :=
  ⟨by decide,
    install_then_fabricate ((Factory.new : t_factory).install 1 (some Msg001ProductionLine))
      2 0 Msg002ProductionLine Msg001ProductionLine Msg002ProductionLine
      (some Msg002ProductionLine) none (by decide)⟩

/-! ## Wire format of the test classes and of the envelope -/

/-- C14: for all bytes a, b, c, d, a `MySecond` with inner `MyFirst` fields (a, b) and
outer fields (c, d) serializes into an empty `OutStream` as exactly
`[0, a, 0, b, 0, c, 0, d]`, which is the encoding of the inner `MyFirst` followed by
`[0, c, 0, d]`: the inner object comes first and no boundary tag is written. With the
pattern of `setPattern` the buffer is `[0x00, 0x55, 0x00, 0xAA, 0x00, 0x99, 0x00, 0x66]`. -/
theorem MySecond_wire_format (a b c d : uint8_t) :
    MySecond.serialize ⟨c, d, ⟨a, b⟩⟩ OutStream.new =
      .ok () (⟨c, d, ⟨a, b⟩⟩, ⟨[0, a, 0, b, 0, c, 0, d]⟩) ∧
    (∃ inner : t_buffer,
      MyFirst.serialize ⟨a, b⟩ OutStream.new = .ok () (⟨a, b⟩, ⟨inner⟩) ∧
      ([0, a, 0, b, 0, c, 0, d] : t_buffer) = inner ++ [0, c, 0, d]) ∧
    MySecond.serialize MySecond.new.setPattern OutStream.new =
      .ok () (MySecond.new.setPattern,
        ⟨[0x00, 0x55, 0x00, 0xAA, 0x00, 0x99, 0x00, 0x66]⟩) := by
  refine ⟨?_, ⟨[0, a, 0, b], ?_, rfl⟩, by decide⟩
  · simpa [OutStream.new] using MySecond_serialize_out ⟨c, d, ⟨a, b⟩⟩ []
  · simpa [OutStream.new] using MyFirst_serialize_out ⟨a, b⟩ []

/-- C15: for all bytes a and b, a `MyFirst` with fields (a, b) serializes into an empty
`OutStream` as exactly `[0, a, 0, b]`, and serializing a newly constructed `MyFirst`
against an `InStream` on `[0, a, 0, b]` leaves it with fields (a, b); with the pattern
of `setPattern`, (0x55, 0xAA), the buffer is `[0x00, 0x55, 0x00, 0xAA]`. -/
theorem MyFirst_wire_format (a b : uint8_t) :
    MyFirst.serialize ⟨a, b⟩ OutStream.new = .ok () (⟨a, b⟩, ⟨[0, a, 0, b]⟩) ∧
    MyFirst.serialize MyFirst.new (InStream.mk [0, a, 0, b]) = .ok () (⟨a, b⟩, ⟨[]⟩) ∧
    MyFirst.new.setPattern = ⟨0x55, 0xAA⟩ ∧
    MyFirst.serialize MyFirst.new.setPattern OutStream.new =
      .ok () (⟨0x55, 0xAA⟩, ⟨[0x00, 0x55, 0x00, 0xAA]⟩) ∧
    MyFirst.serialize MyFirst.new (InStream.mk [0x00, 0x55, 0x00, 0xAA]) =
      .ok () (⟨0x55, 0xAA⟩, ⟨[]⟩) := by
  refine ⟨?_, MyFirst_serialize_in MyFirst.new a b [], rfl, by decide, by decide⟩
  simpa [OutStream.new] using MyFirst_serialize_out ⟨a, b⟩ []

/-- C16: for every message with identifier `id` and a present payload `p`, its encoding
into an empty `OutStream` is the two bytes 0 and the byte value of `id`, followed at once
by the encoding of `p` into an empty `OutStream`, with nothing in between or after;
`Message(msg001, MyFirst(0x55, 0xAA))` encodes to `[0, 0, 0, 0x55, 0, 0xAA]`. -/
theorem Message_wire_format (id : MessageIds.type) (p : ISerializable) (hp : p.present) :
    ∃ payload : t_buffer,
      p.serialize OutStream.new = .ok () (p, ⟨payload⟩) ∧
      (Message.mk id (some p)).serialize OutStream.new =
        .ok () (.mk id (some p), ⟨[TV.unsignedByte, MessageIds.toUint id] ++ payload⟩) ∧
      (Message.mk MessageIds.msg001 (some (.ofMyFirst ⟨0x55, 0xAA⟩))).serialize OutStream.new =
        .ok () (.mk MessageIds.msg001 (some (.ofMyFirst ⟨0x55, 0xAA⟩)),
          ⟨[0, 0, 0, 0x55, 0, 0xAA]⟩) := by
  refine ⟨p.wire, by simpa [OutStream.new] using ISerializable_serialize_out p hp [], ?_,
    by decide⟩
  have h := Message_serialize_out (.mk id (some p)) (by simpa [Message.present] using hp) []
  simpa [OutStream.new, Message.wire, TV.unsignedByte] using h

/-- Instance of C16: the message `Message(msg002, MySecond(0x99, 0x66, MyFirst(0x55, 0xAA)))`. -/
theorem Message_wire_format_witness :
    (ISerializable.ofMySecond ⟨0x99, 0x66, ⟨0x55, 0xAA⟩⟩).present = true ∧
    ∃ payload : t_buffer,
      (ISerializable.ofMySecond ⟨0x99, 0x66, ⟨0x55, 0xAA⟩⟩).serialize OutStream.new =
        .ok () (.ofMySecond ⟨0x99, 0x66, ⟨0x55, 0xAA⟩⟩, ⟨payload⟩) ∧
      (Message.mk MessageIds.msg002
          (some (.ofMySecond ⟨0x99, 0x66, ⟨0x55, 0xAA⟩⟩))).serialize OutStream.new =
        .ok () (.mk MessageIds.msg002 (some (.ofMySecond ⟨0x99, 0x66, ⟨0x55, 0xAA⟩⟩)),
          ⟨[TV.unsignedByte, MessageIds.toUint MessageIds.msg002] ++ payload⟩) ∧
      (Message.mk MessageIds.msg001 (some (.ofMyFirst ⟨0x55, 0xAA⟩))).serialize OutStream.new =
        .ok () (.mk MessageIds.msg001 (some (.ofMyFirst ⟨0x55, 0xAA⟩)),
          ⟨[0, 0, 0, 0x55, 0, 0xAA]⟩) :=
  ⟨rfl, Message_wire_format MessageIds.msg002 (.ofMySecond ⟨0x99, 0x66, ⟨0x55, 0xAA⟩⟩) rfl⟩

/-- C17: for every `MyFirst` or `MySecond` value `v` and every byte sequence `rest`,
serializing any object of the class of `v` against an `InStream` that holds the encoding
of `v` followed by `rest` returns normally, leaves the object equal to `v` and leaves
exactly `rest` in the stream; on the encoding alone the stream is left empty. -/
theorem decode_drains_encoding (v1 target1 : MyFirst) (v2 target2 : MySecond)
    (rest : t_buffer) :
    (∃ enc : t_buffer,
      v1.serialize OutStream.new = .ok () (v1, ⟨enc⟩) ∧
      target1.serialize (InStream.mk (enc ++ rest)) = .ok () (v1, ⟨rest⟩) ∧
      target1.serialize (InStream.mk enc) = .ok () (v1, ⟨[]⟩)) ∧
    (∃ enc : t_buffer,
      v2.serialize OutStream.new = .ok () (v2, ⟨enc⟩) ∧
      target2.serialize (InStream.mk (enc ++ rest)) = .ok () (v2, ⟨rest⟩) ∧
      target2.serialize (InStream.mk enc) = .ok () (v2, ⟨[]⟩)) := by
  constructor
  · refine ⟨[0, v1._val001, 0, v1._val002], ?_, ?_, ?_⟩
    · simpa [OutStream.new] using MyFirst_serialize_out v1 []
    · simpa using MyFirst_serialize_in target1 v1._val001 v1._val002 rest
    · simpa using MyFirst_serialize_in target1 v1._val001 v1._val002 []
  · refine ⟨[0, v2._myFirst._val001, 0, v2._myFirst._val002, 0, v2._val003, 0, v2._val004],
      ?_, ?_, ?_⟩
    · simpa [OutStream.new] using MySecond_serialize_out v2 []
    · simpa using MySecond_serialize_in target2 v2._myFirst._val001 v2._myFirst._val002
        v2._val003 v2._val004 rest
    · simpa using MySecond_serialize_in target2 v2._myFirst._val001 v2._myFirst._val002
        v2._val003 v2._val004 []

/-! ## The envelope and its payload -/

/-- C18: `Message::getPayload` throws the missing-payload exception exactly when the
payload pointer of the message is null; when the payload is present it returns that very
payload, the one the message was constructed with, and the message is unchanged. -/
theorem getPayload_contract (m : Message) :
    ((∃ st, m.getPayload = .thrown .missingPayload st) ↔ m._payload = none) ∧
    (m.getPayload = .thrown .missingPayload m ↔ m._payload = none) ∧
    (∀ p : ISerializable, m._payload = some p → m.getPayload = .ok p m) ∧
    (∀ (e : Exception) (st : Message), m.getPayload = .thrown e st → e = .missingPayload) ∧
    (∀ (id : MessageIds.type) (payload : Option ISerializable),
      (Message.mk id payload)._payload = payload) := by
  match m with
  | .mk id none => simp [Message.getPayload, Message._payload]
  | .mk id (some p) => simp [Message.getPayload, Message._payload]

/-! ## Peek and the bounds of a decode -/

/-- C19: for every buffer of at least two bytes, `InStream::peek` returns the byte at
index 1 and leaves the stream unchanged; the byte at index 0 is not looked at, so a
buffer that differs at index 0 only gives the same value; and a decode that follows
the peek behaves as it does on the original stream, starting at index 0. -/
theorem peek_index_one (self : InStream) (hlen : 2 ≤ self._buffer.length) :
    ∃ value : uint8_t,
      self._buffer[1]? = some value ∧
      self.peek = .ok value self ∧
      (∀ t : uint8_t,
        (InStream.mk (self._buffer.set 0 t)).peek =
          .ok value (InStream.mk (self._buffer.set 0 t))) ∧
      (∀ v : uint8_t,
        ((self.peek.mapState fun s => (s, v)).andThen fun _ st => st.1.marshal st.2) =
          self.marshal v) := by
  obtain ⟨buf⟩ := self
  match buf, hlen with
  | front :: value :: rest, _ =>
    refine ⟨value, by simp, rfl, fun t => rfl, fun v => rfl⟩

/-- Instance of C19: the buffer `[7, 0x11]`, whose first byte is not a tag. -/
theorem peek_index_one_witness :
    2 ≤ (InStream.mk [7, 0x11])._buffer.length ∧
    ∃ value : uint8_t,
      (InStream.mk [7, 0x11])._buffer[1]? = some value ∧
      (InStream.mk [7, 0x11]).peek = .ok value (InStream.mk [7, 0x11]) ∧
      (∀ t : uint8_t,
        (InStream.mk ((InStream.mk [7, 0x11])._buffer.set 0 t)).peek =
          .ok value (InStream.mk ((InStream.mk [7, 0x11])._buffer.set 0 t))) ∧
      (∀ v : uint8_t,
        (((InStream.mk [7, 0x11]).peek.mapState fun s => (s, v)).andThen
            fun _ st => st.1.marshal st.2) =
          (InStream.mk [7, 0x11]).marshal v) :=
  ⟨by decide, peek_index_one ⟨[7, 0x11]⟩ (by decide)⟩

theorem InStream_marshal_two_bytes (t x v : uint8_t) (rest : t_buffer) :
    IStream.marshal (InStream.mk (t :: x :: rest)) v = .ok () (⟨rest⟩, x) ∨
    IStream.marshal (InStream.mk (t :: x :: rest)) v =
      .thrown .formatViolation (⟨t :: x :: rest⟩, v) := by
  by_cases ht : t = 0
  · subst ht
    exact Or.inl (InStream_marshal_tagged x v rest)
  · exact Or.inr (InStream_marshal_bad_tag t v (x :: rest) ht)

theorem MyFirst_serialize_in_bounds (f : MyFirst) (t0 x0 t1 x1 : uint8_t) (rest : t_buffer) :
    f.serialize (InStream.mk (t0 :: x0 :: t1 :: x1 :: rest)) = .ok () (⟨x0, x1⟩, ⟨rest⟩) ∨
    ∃ st, f.serialize (InStream.mk (t0 :: x0 :: t1 :: x1 :: rest)) =
      .thrown .formatViolation st := by
  rcases InStream_marshal_two_bytes t0 x0 f._val001 (t1 :: x1 :: rest) with h0 | h0
  · rcases InStream_marshal_two_bytes t1 x1 f._val002 rest with h1 | h1
    · left
      simp [MyFirst.serialize, h0, h1, Result.mapState, Result.andThen]
    · right
      simp [MyFirst.serialize, h0, h1, Result.mapState, Result.andThen]
  · right
    simp [MyFirst.serialize, h0, Result.mapState, Result.andThen]

theorem MySecond_serialize_in_bounds (g : MySecond) (t0 x0 t1 x1 t2 x2 t3 x3 : uint8_t)
    (rest : t_buffer) :
    (∃ st, g.serialize (InStream.mk (t0 :: x0 :: t1 :: x1 :: t2 :: x2 :: t3 :: x3 :: rest)) =
      .ok () st) ∨
    ∃ st, g.serialize (InStream.mk (t0 :: x0 :: t1 :: x1 :: t2 :: x2 :: t3 :: x3 :: rest)) =
      .thrown .formatViolation st := by
  rcases MyFirst_serialize_in_bounds g._myFirst t0 x0 t1 x1 (t2 :: x2 :: t3 :: x3 :: rest)
    with h0 | ⟨st, h0⟩
  · rcases InStream_marshal_two_bytes t2 x2 g._val003 (t3 :: x3 :: rest) with h2 | h2
    · rcases InStream_marshal_two_bytes t3 x3 g._val004 rest with h3 | h3
      · left
        simp [MySecond.serialize, marshalObject, h0, h2, h3, Result.mapState, Result.andThen]
      · right
        simp [MySecond.serialize, marshalObject, h0, h2, h3, Result.mapState, Result.andThen]
    · right
      simp [MySecond.serialize, marshalObject, h0, h2, Result.mapState, Result.andThen]
  · right
    simp [MySecond.serialize, marshalObject, h0, Result.mapState, Result.andThen]

/-- C20: on a buffer of at least four bytes, serializing a `MyFirst` (two byte fields)
against an `InStream` either returns normally or throws the format-violation exception,
and on a buffer of at least eight bytes so does serializing a `MySecond` (four byte
fields); in neither case is `front()` or `pop_front()` called on an empty deque. In
particular the encoding of a `MyFirst` has four bytes and that of a `MySecond` eight,
and decoding them returns normally. -/
theorem decode_within_bounds (f : MyFirst) (g : MySecond) (b1 b2 : t_buffer)
    (h1 : 2 * 2 ≤ b1.length) (h2 : 2 * 4 ≤ b2.length) :
    ((∃ st, f.serialize (InStream.mk b1) = .ok () st) ∨
      ∃ st, f.serialize (InStream.mk b1) = .thrown .formatViolation st) ∧
    f.serialize (InStream.mk b1) ≠ .undefined ∧
    ((∃ st, g.serialize (InStream.mk b2) = .ok () st) ∨
      ∃ st, g.serialize (InStream.mk b2) = .thrown .formatViolation st) ∧
    g.serialize (InStream.mk b2) ≠ .undefined ∧
    (∀ v : MyFirst, ∃ enc : t_buffer,
      v.serialize OutStream.new = .ok () (v, ⟨enc⟩) ∧ enc.length = 2 * 2 ∧
      f.serialize (InStream.mk enc) = .ok () (v, ⟨[]⟩)) ∧
    (∀ v : MySecond, ∃ enc : t_buffer,
      v.serialize OutStream.new = .ok () (v, ⟨enc⟩) ∧ enc.length = 2 * 4 ∧
      g.serialize (InStream.mk enc) = .ok () (v, ⟨[]⟩)) := by
  have hf : (∃ st, f.serialize (InStream.mk b1) = .ok () st) ∨
      ∃ st, f.serialize (InStream.mk b1) = .thrown .formatViolation st := by
    match b1, h1 with
    | t0 :: x0 :: t1 :: x1 :: rest, _ =>
      rcases MyFirst_serialize_in_bounds f t0 x0 t1 x1 rest with h | h
      · exact Or.inl ⟨_, h⟩
      · exact Or.inr h
  have hg : (∃ st, g.serialize (InStream.mk b2) = .ok () st) ∨
      ∃ st, g.serialize (InStream.mk b2) = .thrown .formatViolation st := by
    match b2, h2 with
    | t0 :: x0 :: t1 :: x1 :: t2 :: x2 :: t3 :: x3 :: rest, _ =>
      exact MySecond_serialize_in_bounds g t0 x0 t1 x1 t2 x2 t3 x3 rest
  refine ⟨hf, ?_, hg, ?_, ?_, ?_⟩
  · rcases hf with ⟨st, h⟩ | ⟨st, h⟩ <;> simp [h]
  · rcases hg with ⟨st, h⟩ | ⟨st, h⟩ <;> simp [h]
  · intro v
    refine ⟨[0, v._val001, 0, v._val002], ?_, rfl, ?_⟩
    · simpa [OutStream.new] using MyFirst_serialize_out v []
    · simpa using MyFirst_serialize_in f v._val001 v._val002 []
  · intro v
    refine ⟨[0, v._myFirst._val001, 0, v._myFirst._val002, 0, v._val003, 0, v._val004],
      ?_, rfl, ?_⟩
    · simpa [OutStream.new] using MySecond_serialize_out v []
    · simpa using MySecond_serialize_in g v._myFirst._val001 v._myFirst._val002
        v._val003 v._val004 []

/-- Instance of C20: a buffer with a wrong second tag for `MyFirst` and a buffer with a
trailing byte for `MySecond`. -/
theorem decode_within_bounds_witness :
    2 * 2 ≤ ([0, 0x55, 1, 0xAA] : t_buffer).length ∧
    2 * 4 ≤ ([0, 0x55, 0, 0xAA, 0, 0x99, 0, 0x66, 3] : t_buffer).length ∧
    (((∃ st, MyFirst.new.serialize (InStream.mk [0, 0x55, 1, 0xAA]) = .ok () st) ∨
      ∃ st, MyFirst.new.serialize (InStream.mk [0, 0x55, 1, 0xAA]) =
        .thrown .formatViolation st) ∧
    MyFirst.new.serialize (InStream.mk [0, 0x55, 1, 0xAA]) ≠ .undefined ∧
    ((∃ st, MySecond.new.serialize
        (InStream.mk [0, 0x55, 0, 0xAA, 0, 0x99, 0, 0x66, 3]) = .ok () st) ∨
      ∃ st, MySecond.new.serialize
        (InStream.mk [0, 0x55, 0, 0xAA, 0, 0x99, 0, 0x66, 3]) =
          .thrown .formatViolation st) ∧
    MySecond.new.serialize (InStream.mk [0, 0x55, 0, 0xAA, 0, 0x99, 0, 0x66, 3]) ≠
      .undefined ∧
    (∀ v : MyFirst, ∃ enc : t_buffer,
      v.serialize OutStream.new = .ok () (v, ⟨enc⟩) ∧ enc.length = 2 * 2 ∧
      MyFirst.new.serialize (InStream.mk enc) = .ok () (v, ⟨[]⟩)) ∧
    (∀ v : MySecond, ∃ enc : t_buffer,
      v.serialize OutStream.new = .ok () (v, ⟨enc⟩) ∧ enc.length = 2 * 4 ∧
      MySecond.new.serialize (InStream.mk enc) = .ok () (v, ⟨[]⟩))) :=
  ⟨by decide, by decide,
    decode_within_bounds MyFirst.new MySecond.new [0, 0x55, 1, 0xAA]
      [0, 0x55, 0, 0xAA, 0, 0x99, 0, 0x66, 3] (by decide) (by decide)⟩

/-! ## Atomicity of a failing read, and the receiver across calls -/

/-- C21: for every non-empty buffer whose head byte is not 0 and every value `v` of the
output slot, `InStream::marshal(std::uint8_t&)` throws the format-violation exception
and, at the throw, the stream and the output slot are exactly as they were before the
call: nothing was popped and nothing was written. -/
theorem InStream_marshal_failure_atomic (self : InStream) (v : uint8_t)
    (hne : self._buffer ≠ []) (hhead : self._buffer.head? ≠ some TV.unsignedByte) :
    self.marshal v = .thrown .formatViolation (self, v) := by
  obtain ⟨buf⟩ := self
  match buf, hne with
  | front :: rest, _ =>
    have hf : front ≠ TV.unsignedByte := by simpa using hhead
    simp [InStream.marshal, hf]

/-- Instance of C21: the one-byte buffer `[1]` and the output slot 0x55. -/
theorem InStream_marshal_failure_atomic_witness :
    (InStream.mk [1])._buffer ≠ [] ∧
    (InStream.mk [1])._buffer.head? ≠ some TV.unsignedByte ∧
    (InStream.mk [1]).marshal 0x55 = .thrown .formatViolation (InStream.mk [1], 0x55) :=
  ⟨by decide, by decide, InStream_marshal_failure_atomic ⟨[1]⟩ 0x55 (by decide) (by decide)⟩

theorem recieve_package_input_irrelevant (input1 input2 : InStream) (factory : t_factory)
    (buf : t_buffer) :
    (recieve.mk input1 factory).package buf = (recieve.mk input2 factory).package buf :=
  rfl

theorem recieve_package_keeps_factory (self : recieve) (buf : t_buffer) :
    (∀ (m : Message) (r : recieve), self.package buf = .ok m r → r._factory = self._factory) ∧
    (∀ (e : Exception) (r : recieve),
      self.package buf = .thrown e r → r._factory = self._factory) := by
  obtain ⟨input, factory⟩ := self
  match buf with
  | [] => simp [recieve.package, InStream.setBuffer, InStream.peek]
  | [_] => simp [recieve.package, InStream.setBuffer, InStream.peek]
  | front :: second :: rest =>
    cases hl : factory._manufacturingLines second with
    | none =>
      simp only [recieve.package, InStream.setBuffer, InStream.peek, Factory.fabricate, hl]
      constructor
      · intro m r h
        simp at h
      · intro e r h
        simp only [Result.thrown.injEq] at h
        rw [← h.2]
    | some producer =>
      cases producer with
      | none =>
        simp only [recieve.package, InStream.setBuffer, InStream.peek, Factory.fabricate, hl]
        constructor
        · intro m r h
          simp at h
        · intro e r h
          simp only [Result.thrown.injEq] at h
          rw [← h.2]
      | some P =>
        cases hc : P.Create with
        | none =>
          simp only [recieve.package, InStream.setBuffer, InStream.peek, Factory.fabricate,
            hl, hc]
          constructor
          · intro m r h
            simp at h
          · intro e r h
            simp only [Result.thrown.injEq] at h
            rw [← h.2]
        | some product =>
          simp only [recieve.package, InStream.setBuffer, InStream.peek, Factory.fabricate,
            hl, hc]
          cases hs : product.serialize (InStream.mk (front :: second :: rest)) with
          | undefined => simp
          | thrown e st =>
            constructor
            · intro m r h
              simp at h
            · intro e2 r h
              simp only [Result.thrown.injEq] at h
              rw [← h.2]
          | ok u st =>
            constructor
            · intro m r h
              simp only [Result.ok.injEq] at h
              rw [← h.2]
            · intro e2 r h
              simp at h

theorem recieve_afterCalls_factory :
    ∀ (history : List t_buffer) (self r : recieve),
      self.afterCalls history = some r → r._factory = self._factory
  | [], self, r, h => by
    simp only [recieve.afterCalls, Option.some.injEq] at h
    rw [← h]
  | buf :: history, self, r, h => by
    cases hp : self.package buf with
    | undefined => simp [recieve.afterCalls, hp] at h
    | thrown e r1 =>
      simp only [recieve.afterCalls, hp] at h
      rw [recieve_afterCalls_factory history r1 r h]
      exact (recieve_package_keeps_factory self buf).2 e r1 hp
    | ok m r1 =>
      simp only [recieve.afterCalls, hp] at h
      rw [recieve_afterCalls_factory history r1 r h]
      exact (recieve_package_keeps_factory self buf).1 m r1 hp

/-- C22: for every factory, every buffer `buf` and every history of earlier `package`
calls on a `recieve` object constructed with that factory (calls that returned normally,
that threw part-way, or that left undecoded bytes behind), the outcome of `package(buf)`
on the object, the returned message or the exception together with the state left
behind, is the outcome on a newly constructed `recieve` with the same factory: the
object still refers to the factory, and `setBuffer` replaces the whole content of
its `InStream`, whatever that stream held. -/
theorem package_carries_no_state (factory : t_factory) (history : List t_buffer)
    (buf : t_buffer) (r : recieve)
    (h : (recieve.new factory).afterCalls history = some r) :
    r.package buf = (recieve.new factory).package buf ∧
    r._factory = factory ∧
    r._input.setBuffer buf = InStream.mk buf ∧
    (∀ input : InStream,
      (recieve.mk input factory).package buf = (recieve.new factory).package buf) := by
  have hf : r._factory = factory := recieve_afterCalls_factory history _ r h
  obtain ⟨input, f⟩ := r
  simp only at hf
  subst hf
  exact ⟨rfl, rfl, rfl, fun _ => rfl⟩

/-- Instance of C22: the factory of `main` and a history of three calls: one that
returns normally and leaves two undecoded bytes, one under an unknown identifier, and
one that throws at the second tag of the payload and leaves six bytes in the stream. -/
theorem package_carries_no_state_witness :
    (recieve.new MsgFactory).afterCalls
        [[0, 0, 0, 0x55, 0, 0xAA, 9, 9], [0, 2, 0, 1], [0, 1, 0, 0x55, 1, 0xAA, 0, 1, 0, 2]] =
      some ⟨⟨[1, 0xAA, 0, 1, 0, 2]⟩, MsgFactory⟩ ∧
    ((recieve.mk ⟨[1, 0xAA, 0, 1, 0, 2]⟩ MsgFactory).package [0, 0, 0, 0x11, 0, 0x22] =
      (recieve.new MsgFactory).package [0, 0, 0, 0x11, 0, 0x22] ∧
    (recieve.mk ⟨[1, 0xAA, 0, 1, 0, 2]⟩ MsgFactory)._factory = MsgFactory ∧
    (recieve.mk ⟨[1, 0xAA, 0, 1, 0, 2]⟩ MsgFactory)._input.setBuffer
        [0, 0, 0, 0x11, 0, 0x22] = InStream.mk [0, 0, 0, 0x11, 0, 0x22] ∧
    (∀ input : InStream,
      (recieve.mk input MsgFactory).package [0, 0, 0, 0x11, 0, 0x22] =
        (recieve.new MsgFactory).package [0, 0, 0, 0x11, 0, 0x22])) ∧
    (recieve.new MsgFactory).package [0, 0, 0, 0x11, 0, 0x22] =
      .ok (.mk MessageIds.msg001 (some (.ofMyFirst ⟨0x11, 0x22⟩))) ⟨⟨[]⟩, MsgFactory⟩ :=
  ⟨rfl,
    package_carries_no_state MsgFactory
      [[0, 0, 0, 0x55, 0, 0xAA, 9, 9], [0, 2, 0, 1], [0, 1, 0, 0x55, 1, 0xAA, 0, 1, 0, 2]]
      [0, 0, 0, 0x11, 0, 0x22] ⟨⟨[1, 0xAA, 0, 1, 0, 2]⟩, MsgFactory⟩ rfl,
    rfl⟩
